import Mathlib

/-!
The JOS kernel monitor (`kern/monitor.c`).

A shallow embedding of the command interpreter of the kernel monitor and of its
command handlers, followed by theorems about them.

Conventions of the embedding

* A C string is a `List Char`; the terminating NUL is the end of the list, and a
  NUL character inside a list also ends the string (see `cstr`).
* `int`/`long` values are `Int`, reduced with `i32` where the code can overflow;
  `uint32_t`, `uintptr_t`, `physaddr_t`, `pte_t` and pointers are `Nat`, reduced
  with `u32`.
* Kernel memory is a byte map `Nat → Nat`; 32-bit loads and stores are
  little-endian (`read32`, `write32`).
* The line buffer handed to `runcmd` is kept apart from the kernel memory.
* The console is the list of `cprintf` calls made so far, oldest first.
* The functions `monitor.c` calls but does not define (`strtol`, `pgdir_walk`, `KADDR`,
  `debuginfo_eip`, `read_ebp`) are fields of `Env`. A read through a null result of
  `pgdir_walk` is the outcome `Outcome.fault`.
* Loops that the C code does not bound are given a fuel argument; running out of
  fuel is the outcome `Outcome.timeout`. A loop entered with fuel `n + 1` runs its
  inner loop with fuel `n`.
-/

namespace JOS

/-! ## Characters and C strings -/

/-- The NUL character that terminates a C string. -/
def NUL : Char := Char.ofNat 0

/-- The string literal `WHITESPACE` of `monitor.c`: tab, CR, LF, space. -/
def WHITESPACE : List Char := ['\t', '\r', '\n', ' ']

/-- The constant `MAXARGS` of `monitor.c`. -/
def MAXARGS : Nat := 16

/-- The C string stored in a list of characters: everything before the first NUL. -/
def cstr (s : List Char) : List Char := s.takeWhile (fun c => c != NUL)

/-- The C string that starts at offset `p` of the buffer `mem`. -/
def cstrAt (mem : List Char) (p : Nat) : List Char := cstr (mem.drop p)

/-- The library function `strchr(s, c)`: the offset of the first occurrence of `c` in
the C string `s`, where the terminating NUL counts as part of the string; `none` is
the null pointer. -/
def strchr : List Char → Char → Option Nat
  | [], c => if c = NUL then some 0 else none
  | x :: xs, c =>
    if x = NUL then (if c = NUL then some 0 else none)
    else if x = c then some 0
    else (strchr xs c).map (fun i => i + 1)

/-- The library function `strcmp(p, q)`:
`while (*p && *p == *q) p++, q++; return (unsigned char) *p - (unsigned char) *q`. -/
def strcmp : List Char → List Char → Int
  | [], [] => 0
  | [], q :: _ => 0 - (q.toNat : Int)
  | p :: _, [] => (p.toNat : Int)
  | p :: ps, q :: qs =>
    if p ≠ NUL ∧ p = q then strcmp ps qs else (p.toNat : Int) - (q.toNat : Int)

/-! ## The argument parser of `runcmd` -/

/-- The loop `while (*buf && strchr(WHITESPACE, *buf)) *buf++ = 0;`.
The buffer is split at the cursor: `done` holds the bytes below `buf`, the second
argument the bytes from `buf` on. Returns the buffer split at the new cursor. -/
def gobble (done : List Char) : List Char → List Char × List Char
  | [] => (done, [])
  | c :: cs =>
    if c ≠ NUL ∧ (strchr WHITESPACE c).isSome then gobble (done ++ [NUL]) cs
    else (done, c :: cs)

/-- The loop `while (*buf && !strchr(WHITESPACE, *buf)) buf++;`, on the buffer split
at the cursor as in `gobble`. -/
def scanArg (done : List Char) : List Char → List Char × List Char
  | [] => (done, [])
  | c :: cs =>
    if c ≠ NUL ∧ ¬ (strchr WHITESPACE c).isSome then scanArg (done ++ [c]) cs
    else (done, c :: cs)

/-- Result of the parsing loop of `runcmd`. -/
inductive Parse where
  /-- The loop ended at `break`: the buffer as rewritten and the pointers `argv[0..argc-1]`
  (offsets into the buffer). -/
  | parsed (mem : List Char) (argv : List Nat)
  /-- The loop ended at `return 0` after "Too many arguments". -/
  | tooMany
  /-- The iteration budget given to `parseLoop` ran out. -/
  | unfinished
deriving DecidableEq

/-- The loop `while (1) { ... }` of `runcmd`. `argv` holds the `argc` pointers stored so
far, so `argc` is `argv.length` and `argv[argc++] = buf` appends the offset of `buf`. -/
def parseLoop : Nat → List Char → List Char → List Nat → Parse
  | 0, _, _, _ => .unfinished
  | n + 1, done, rest, argv =>
    match gobble done rest with
    | (done1, rest1) =>
      if rest1.headD NUL = NUL then .parsed (done1 ++ rest1) argv
      else if argv.length = MAXARGS - 1 then .tooMany
      else
        match scanArg done1 rest1 with
        | (done2, rest2) => parseLoop n done2 rest2 (argv ++ [done1.length])

/-- The parsing part of `runcmd` (lines 254-272) on the line buffer `buf`. Every
iteration of the loop that does not leave it moves the cursor forward, so
`buf.length + 1` iterations are enough (`parseArgs_finished`). -/
def parseArgs (buf : List Char) : Parse :=
  parseLoop (buf.length + 1) [] buf []

/-- The strings `argv[0], ..., argv[argc-1]` as a handler reads them. -/
def argStrings (mem : List Char) (argv : List Nat) : List (List Char) :=
  argv.map (cstrAt mem)

/-- Membership in the whitespace set, as the specification words it. -/
def isWhitespace (c : Char) : Bool :=
  c = '\t' || c = '\r' || c = '\n' || c = ' '

/-- The tokens of a line as the specification defines them: the maximal runs of
characters other than tab, CR, LF and space, in order. -/
def lineTokens (line : List Char) : List (List Char) :=
  ((cstr line).splitOnP isWhitespace).filter (fun t => t ≠ [])

/-- A line written out from its parts: leading whitespace `lead`, a first token, then
for each further token the whitespace run before it and the token, then trailing
whitespace `trail`. -/
def buildLine (lead first : List Char) (more : List (List Char × List Char))
    (trail : List Char) : List Char :=
  lead ++ (first ++ more.foldr (fun it acc => it.1 ++ (it.2 ++ acc)) trail)

/-- The characters that make up an argument: neither NUL nor whitespace. -/
def isTok (c : Char) : Bool := c != NUL && !isWhitespace c

/-! ## Machine words and memory -/

/-- Conversion of an integer to an unsigned 32-bit value (`uint32_t`, `uintptr_t`,
`physaddr_t`, `pte_t`, pointers). -/
def u32 (x : Int) : Nat := (x % 4294967296).toNat

/-- Conversion of an integer to a signed 32-bit value (`int`, `long`), two's complement. -/
def i32 (x : Int) : Int := (x + 2147483648) % 4294967296 - 2147483648

/-- The 32-bit little-endian load `*(uint32_t *) a` from the byte memory `m`. -/
def read32 (m : Nat → Nat) (a : Nat) : Nat :=
  m (a % 4294967296) % 256
    + 256 * (m ((a + 1) % 4294967296) % 256)
    + 65536 * (m ((a + 2) % 4294967296) % 256)
    + 16777216 * (m ((a + 3) % 4294967296) % 256)

/-- The 32-bit little-endian store `*(uint32_t *) a = v` into the byte memory `m`. -/
def write32 (m : Nat → Nat) (a v : Nat) : Nat → Nat := fun x =>
  if x = (a + 3) % 4294967296 then v / 16777216 % 256
  else if x = (a + 2) % 4294967296 then v / 65536 % 256
  else if x = (a + 1) % 4294967296 then v / 256 % 256
  else if x = a % 4294967296 then v % 256
  else m x

/-! ## Constants

`CMDBUF_SIZE`, `NUKE_EBP` and `ARGSC` are defined in `monitor.c`. The other constants
come from headers that are not part of the sources at hand. -/

/-- The constant `CMDBUF_SIZE` of `monitor.c`. -/
def CMDBUF_SIZE : Int := 80

/-- The constant `NUKE_EBP` of `monitor.c`, the end of the chain of saved frame pointers. -/
def NUKE_EBP : Nat := 0

/-- The constant `ARGSC` of `monitor.c`, the number of argument words printed per frame. -/
def ARGSC : Nat := 5

/-- Modelled from the spec: `PGSIZE` of `inc/mmu.h`, which is not among the sources. The
page size whose frame mask is the `0xfffff000` used in `monitor.c` (a 20-bit frame base). -/
def PGSIZE : Nat := 4096

/-- Modelled from the spec: `PTE_P` of `inc/mmu.h`, which is not among the sources. The
"present" bit of an x86 page-table entry. -/
def PTE_P : Nat := 1

/-- Modelled from the spec: `PTE_W` of `inc/mmu.h`, which is not among the sources. The
"writable" bit of an x86 page-table entry. -/
def PTE_W : Nat := 2

/-- Modelled from the spec: `PTE_U` of `inc/mmu.h`, which is not among the sources. The
"user-accessible" bit of an x86 page-table entry. -/
def PTE_U : Nat := 4

/-- Modelled from the spec: `PTE_D` of `inc/mmu.h`, which is not among the sources. The
"dirty" bit of an x86 page-table entry. -/
def PTE_D : Nat := 64

/-- Modelled from the spec: `KERNBASE` of `inc/memlayout.h`, which is not among the
sources. The fixed high address at which the kernel's directly mapped region starts; an
unsigned constant, so comparisons against it are unsigned. -/
def KERNBASE : Nat := 4026531840

/-! ## Console, kernel state and external collaborators -/

/-- An argument of a `cprintf` call. -/
inductive Arg where
  /-- An integer or pointer argument (for `%d`, `%x`, `%08x`, and the length of `%.*s`). -/
  | int (v : Int)
  /-- A string argument (for `%s`, `%.*s`). -/
  | str (s : List Char)
deriving DecidableEq

/-- One call of `cprintf`: the format string and the arguments passed with it. -/
structure Print where
  fmt : String
  args : List Arg
deriving DecidableEq

/-- The state the monitor's commands act on: the byte memory (which holds the page-table
entries) and the console output so far. -/
structure Kernel where
  mem : Nat → Nat
  console : List Print

/-- The call `cprintf(fmt, args...)`: appends the call to the console output. -/
def cprintf (k : Kernel) (fmt : String) (args : List Arg) : Kernel :=
  { k with console := k.console ++ [{ fmt := fmt, args := args }] }

/-- The `struct Eipdebuginfo` fields read by `mon_backtrace`. -/
structure Eipdebuginfo where
  eip_file : List Char
  eip_line : Int
  eip_fn_name : List Char
  eip_fn_namelen : Int
  eip_fn_addr : Nat

/-- The functions and symbols `monitor.c` uses but does not define, taken as parameters. -/
structure Env where
  /-- The call `strtol(s, NULL, base)`. -/
  strtol : List Char → Int → Int
  /-- The call `pgdir_walk(boot_pgdir, va, 0)`: the address of the page-table entry for
  `va`, or `none` for the null pointer. -/
  pgdir_walk : Nat → Option Nat
  /-- The call `KADDR(pa)` (defined in a header); `none` when it panics. -/
  KADDR : Nat → Option Nat
  /-- The call `debuginfo_eip(eip, &info)`: the contents of `info` afterwards. -/
  debuginfo_eip : Nat → Eipdebuginfo
  /-- The value of `read_ebp()` on entry to `mon_backtrace`. -/
  read_ebp : Nat
  /-- The address of the linker symbol `_start`. -/
  sym_start : Nat
  /-- The address of the linker symbol `etext`. -/
  sym_etext : Nat
  /-- The address of the linker symbol `edata`. -/
  sym_edata : Nat
  /-- The address of the linker symbol `end`. -/
  sym_end : Nat

/-- How a call of a command handler (or of `runcmd`) ends. -/
inductive Outcome where
  /-- The function returned `rc`, leaving the kernel in state `k`. -/
  | ret (rc : Int) (k : Kernel)
  /-- The function read through a null page-table-entry pointer; `k` is the state then. -/
  | fault (k : Kernel)
  /-- The call of `KADDR` panicked; `k` is the state then. -/
  | halted (k : Kernel)
  /-- The fuel ran out before the function returned; `k` is the state then. -/
  | timeout (k : Kernel)

/-- The value a call returned, if it returned. -/
def Outcome.rc : Outcome → Option Int
  | .ret rc _ => some rc
  | .fault _ => none
  | .halted _ => none
  | .timeout _ => none

/-- The kernel state in which a call ended. -/
def Outcome.state : Outcome → Kernel
  | .ret _ k => k
  | .fault k => k
  | .halted k => k
  | .timeout k => k

/-- Whether a call ended by reading through a null page-table-entry pointer. -/
def Outcome.faulted : Outcome → Bool
  | .fault _ => true
  | _ => false

/-- Whether a call ran out of fuel before returning. -/
def Outcome.timedOut : Outcome → Bool
  | .timeout _ => true
  | _ => false

/-! ## Command handlers -/

/-- The `name` and `desc` columns of the table `commands`, in order. -/
def commandText : List (List Char × List Char) :=
  [ ("help".data, "Display this list of commands".data),
    ("kerninfo".data, "Display information about the kernel".data),
    ("backtrace".data, "Display a list of call frames".data),
    ("showmappings".data, "Display the physical page mappings".data),
    ("dump".data, "Display the content of a memory range".data),
    ("pmsetperm".data, "Sets page mapping permissions bit".data),
    ("pmclearperm".data, "Sets page mapping permissions bit".data) ]

/-- The loop of `mon_help` over the table rows from the current index on. -/
def helpLoop (k : Kernel) : List (List Char × List Char) → Kernel
  | [] => k
  | c :: cs => helpLoop (cprintf k "%s - %s\n" [.str c.1, .str c.2]) cs

/-- The handler `mon_help`. -/
def mon_help (_fuel : Nat) (_argc : Int) (_argv : List (List Char)) (_tf : Nat)
    (k : Kernel) : Outcome :=
  .ret 0 (helpLoop k commandText)

/-- The handler `mon_kerninfo`. -/
def mon_kerninfo (env : Env) (_fuel : Nat) (_argc : Int) (_argv : List (List Char))
    (_tf : Nat) (k : Kernel) : Outcome :=
  let k := cprintf k "Special kernel symbols:\n" []
  let k := cprintf k "  _start %08x (virt)  %08x (phys)\n"
    [.int env.sym_start, .int (u32 ((env.sym_start : Int) - KERNBASE))]
  let k := cprintf k "  etext  %08x (virt)  %08x (phys)\n"
    [.int env.sym_etext, .int (u32 ((env.sym_etext : Int) - KERNBASE))]
  let k := cprintf k "  edata  %08x (virt)  %08x (phys)\n"
    [.int env.sym_edata, .int (u32 ((env.sym_edata : Int) - KERNBASE))]
  let k := cprintf k "  end    %08x (virt)  %08x (phys)\n"
    [.int env.sym_end, .int (u32 ((env.sym_end : Int) - KERNBASE))]
  let k := cprintf k "Kernel executable memory footprint: %dKB\n"
    [.int (Int.tdiv (i32 (i32 ((env.sym_end : Int) - env.sym_start) + 1023)) 1024)]
  .ret 0 k

/-- The loop `while (i--) cprintf("%08x ", *ebp++);` of `mon_backtrace`, with `i` the
first argument; returns the console state and the advanced `ebp`. -/
def backtraceArgs : Nat → Nat → Kernel → Kernel × Nat
  | 0, ebp, k => (k, ebp)
  | i + 1, ebp, k =>
    backtraceArgs i (u32 ((ebp : Int) + 4)) (cprintf k "%08x " [.int (read32 k.mem ebp)])

/-- The `do { ... } while (saved_ebp != NUKE_EBP);` loop of `mon_backtrace`, entered
with the frame pointer `ebp`. -/
def backtraceLoop (env : Env) : Nat → Nat → Kernel → Outcome
  | 0, _, k => .timeout k
  | fuel + 1, ebp, k =>
    let saved_ebp := read32 k.mem ebp
    let k := cprintf k "  ebp %x " [.int ebp]
    let ebp := u32 ((ebp : Int) + 4)
    let eip := read32 k.mem ebp
    let k := cprintf k "eip %x " [.int (read32 k.mem ebp)]
    let ebp := u32 ((ebp : Int) + 4)
    let k := cprintf k "args " []
    match backtraceArgs ARGSC ebp k with
    | (k, _) =>
      let info := env.debuginfo_eip eip
      let k := cprintf k "\n        " []
      let k := cprintf k "%s:%d: " [.str info.eip_file, .int info.eip_line]
      let k := cprintf k "%.*s+%d\n"
        [.int info.eip_fn_namelen, .str info.eip_fn_name,
         .int (u32 ((eip : Int) - info.eip_fn_addr))]
      if saved_ebp ≠ NUKE_EBP then backtraceLoop env fuel saved_ebp k else .ret 0 k

/-- The handler `mon_backtrace`. -/
def mon_backtrace (env : Env) (fuel : Nat) (_argc : Int) (_argv : List (List Char))
    (_tf : Nat) (k : Kernel) : Outcome :=
  backtraceLoop env fuel env.read_ebp (cprintf k "\nStack backtrace:\n" [])

/-- A chain of saved frame pointers in the memory `mem`, innermost first: each frame
pointer but the last holds the next one, which is not the sentinel `NUKE_EBP`, and the
last one holds the sentinel. -/
def frameChain (mem : Nat → Nat) : List Nat → Bool
  | [] => false
  | [fp] => read32 mem fp == NUKE_EBP
  | fp :: next :: rest =>
    read32 mem fp == next && next != NUKE_EBP && frameChain mem (next :: rest)

/-- The block of `cprintf` calls expected for the frame at `fp`: the frame pointer, the
return address `mem[fp + 4]`, the five words `mem[fp + 8] .. mem[fp + 24]`, and the
symbolizer's file, line and function name with the offset of the return address from the
start of the function. -/
def frameBlock (env : Env) (mem : Nat → Nat) (fp : Nat) : List Print :=
  [ { fmt := "  ebp %x ", args := [.int fp] },
    { fmt := "eip %x ", args := [.int (read32 mem (fp + 4))] },
    { fmt := "args ", args := [] },
    { fmt := "%08x ", args := [.int (read32 mem (fp + 8))] },
    { fmt := "%08x ", args := [.int (read32 mem (fp + 12))] },
    { fmt := "%08x ", args := [.int (read32 mem (fp + 16))] },
    { fmt := "%08x ", args := [.int (read32 mem (fp + 20))] },
    { fmt := "%08x ", args := [.int (read32 mem (fp + 24))] },
    { fmt := "\n        ", args := [] },
    { fmt := "%s:%d: ",
      args := [.str (env.debuginfo_eip (read32 mem (fp + 4))).eip_file,
               .int (env.debuginfo_eip (read32 mem (fp + 4))).eip_line] },
    { fmt := "%.*s+%d\n",
      args := [.int (env.debuginfo_eip (read32 mem (fp + 4))).eip_fn_namelen,
               .str (env.debuginfo_eip (read32 mem (fp + 4))).eip_fn_name,
               .int (u32 ((read32 mem (fp + 4) : Int)
                 - (env.debuginfo_eip (read32 mem (fp + 4))).eip_fn_addr))] } ]

/-- The blocks expected for a list of frame pointers, in the order of the list. -/
def frameBlocks (env : Env) (mem : Nat → Nat) : List Nat → List Print
  | [] => []
  | fp :: rest => frameBlock env mem fp ++ frameBlocks env mem rest

/-- The function `mon_showmappings_page_info(pte, va)`; `none` when `pte` is the null
pointer, which the function reads through. -/
def mon_showmappings_page_info (pte : Option Nat) (va : Nat) (k : Kernel) : Option Kernel :=
  match pte with
  | none => none
  | some p =>
    let e : Nat := read32 k.mem p
    let pa : Nat := e &&& 4294963200
    some (cprintf k "\n%11x| %11x| %2d | %4d | %4d | %2d |"
      [.int va, .int pa,
       .int (if e &&& PTE_P ≠ 0 then 1 else 0), .int (if e &&& PTE_W ≠ 0 then 1 else 0),
       .int (if e &&& PTE_U ≠ 0 then 1 else 0), .int (if e &&& PTE_D ≠ 0 then 1 else 0)])

/-- The `cprintf` call that `mon_showmappings_page_info` makes for an entry of value `e`
and the address `va`. -/
def pageRow (e va : Nat) : Print :=
  { fmt := "\n%11x| %11x| %2d | %4d | %4d | %2d |",
    args := [.int va, .int ((e &&& 4294963200 : Nat) : Int),
      .int (if e &&& PTE_P ≠ 0 then 1 else 0), .int (if e &&& PTE_W ≠ 0 then 1 else 0),
      .int (if e &&& PTE_U ≠ 0 then 1 else 0), .int (if e &&& PTE_D ≠ 0 then 1 else 0)] }

/-- The two `cprintf` calls of the usage text of `showmappings`. -/
def showmappingsUsage (k : Kernel) : Kernel :=
  cprintf (cprintf k "\nWrong arguments" [])
    "\nUsage :\n    showmappings [hex start vitual adress] [hex end virtual adress]\n" []

/-- The loop `for (i = 0; i < size; i += PGSIZE)` of `mon_showmappings`, entered with the
current value of the `int` counter `i`. -/
def showmappingsLoop (env : Env) (la : Nat) (size : Int) : Nat → Int → Kernel → Outcome
  | 0, _, k => .timeout k
  | fuel + 1, i, k =>
    if i < size then
      let pte := env.pgdir_walk (u32 ((la : Int) + i))
      match mon_showmappings_page_info pte (u32 ((la : Int) + i)) k with
      | none => .fault k
      | some k1 => showmappingsLoop env la size fuel (i32 (i + PGSIZE)) k1
    else .ret 0 (cprintf k "\n" [])

/-- The handler `mon_showmappings`. -/
def mon_showmappings (env : Env) (fuel : Nat) (argc : Int) (argv : List (List Char))
    (_tf : Nat) (k : Kernel) : Outcome :=
  if ¬ (argc > 2 ∧ argc < 4) then .ret 1 (showmappingsUsage k)
  else
    let la := u32 (env.strtol (argv.getD 1 []) 16)
    let ha := u32 (env.strtol (argv.getD 2 []) 16)
    if la > ha then .ret 1 (showmappingsUsage k)
    else
      let k := cprintf k "Virtual/Physical Address|   Permission bits     |" []
      let k := cprintf k "\n    VA     |    PA      |  P |  R/W |  U/S |  D |" []
      let size : Int := i32 ((ha : Int) - la)
      showmappingsLoop env la size fuel 0 k

/-- The two `cprintf` calls of the usage text of `dump`. -/
def dumpUsage (k : Kernel) : Kernel :=
  cprintf (cprintf k "\nWrong arguments" [])
    "\nUsage :\n    dump [hex start adress] [hex end adress]\n" []

/-- The inner loop `for (j = i; j < (i + CMDBUF_SIZE / 8); j++)` of the first branch of
`mon_memorydump`; `l + j` is arithmetic on a `void *`, so it advances by bytes. -/
def dumpDirectRow (l : Nat) (bound : Int) : Nat → Int → Kernel → Option Kernel
  | 0, _, _ => none
  | fuel + 1, j, k =>
    if j < bound then
      dumpDirectRow l bound fuel (i32 (j + 1))
        (cprintf k "%08x " [.int (read32 k.mem (u32 ((l : Int) + j)))])
    else some k

/-- The outer loop `for (i = 0; i < size; i += CMDBUF_SIZE / 8)` of the first branch of
`mon_memorydump`. -/
def dumpDirectLoop (l : Nat) (size : Int) : Nat → Int → Kernel → Outcome
  | 0, _, k => .timeout k
  | fuel + 1, i, k =>
    if i < size then
      match dumpDirectRow l (i32 (i + Int.tdiv CMDBUF_SIZE 8)) fuel i k with
      | none => .timeout k
      | some k1 =>
        dumpDirectLoop l size fuel (i32 (i + Int.tdiv CMDBUF_SIZE 8)) (cprintf k1 "\n" [])
    else .ret 0 k

/-- The `cprintf` calls that the first branch of `mon_memorydump` makes for `d` lines
starting with line number `r`: each line is the ten words stored at the byte offsets
`10 * r`, ..., `10 * r + 9` from `l`, followed by a newline. -/
def dumpDirectRows (mem : Nat → Nat) (l : Nat) : Nat → Nat → List Print
  | 0, _ => []
  | d + 1, r =>
    (List.range' (10 * r) 10).map (fun (t : Nat) =>
      ({ fmt := "%08x ", args := [.int (read32 mem (u32 ((l : Int) + (t : Int))))] } : Print))
    ++ [{ fmt := "\n", args := [] }] ++ dumpDirectRows mem l d (r + 1)

/-- The inner loop `while (pp_boundary > (physaddr_t)(l + i) && i < size)` of the second
branch of `mon_memorydump`; returns the console state and the values of `i` and `j` at
exit, or `none` when the fuel ran out. `la + i` is arithmetic on a `uintptr_t *`, so it
advances by words, while `l + i` advances by bytes. -/
def dumpPageWords (l la pp_boundary : Nat) (size : Int) :
    Nat → Int → Int → Kernel → Option (Kernel × Int × Int)
  | 0, _, _, _ => none
  | fuel + 1, i, j, k =>
    if pp_boundary > u32 ((l : Int) + i) ∧ i < size then
      let kj : Kernel × Int :=
        if i32 (j + Int.tdiv CMDBUF_SIZE 8) < i then (cprintf k "\n" [], i) else (k, j)
      dumpPageWords l la pp_boundary size fuel (i32 (i + 1)) kj.2
        (cprintf kj.1 "%08x " [.int (read32 kj.1.mem (u32 ((la : Int) + 4 * i)))])
    else some (k, i, j)

/-- The outer loop `for (i = 0; i < size; )` of the second branch of `mon_memorydump`. -/
def dumpPagedLoop (env : Env) (l : Nat) (size : Int) : Nat → Int → Kernel → Outcome
  | 0, _, k => .timeout k
  | fuel + 1, i, k =>
    if i < size then
      match env.KADDR l with
      | none => .halted k
      | some la =>
        match env.pgdir_walk la with
        | none => .fault k
        | some pte =>
          let base : Nat := read32 k.mem pte &&& 4294963200
          let pp_boundary := u32 ((base : Int) + PGSIZE)
          match dumpPageWords l la pp_boundary size fuel i i k with
          | none => .timeout k
          | some (k1, i1, _) => dumpPagedLoop env l size fuel i1 k1
    else .ret 0 (cprintf k "\n" [])

/-- The handler `mon_memorydump`. -/
def mon_memorydump (env : Env) (fuel : Nat) (argc : Int) (argv : List (List Char))
    (_tf : Nat) (k : Kernel) : Outcome :=
  if ¬ (argc > 2 ∧ argc < 4) then .ret 1 (dumpUsage k)
  else
    let l := u32 (env.strtol (argv.getD 1 []) 16)
    let h := u32 (env.strtol (argv.getD 2 []) 16)
    if l > h then .ret 1 (dumpUsage k)
    else
      let size : Int := i32 (((h - l) / 4 : Nat) : Int)
      if l ≥ KERNBASE then dumpDirectLoop l size fuel 0 k
      else dumpPagedLoop env l size fuel 0 k

/-- The `switch (bit)` of `mon_pmsetpermisionbit`: the permission mask selected by the
character, `none` for the `default` case. -/
def permBit (bit : Char) : Option Nat :=
  if bit = 'P' then some PTE_P
  else if bit = 'W' then some PTE_W
  else if bit = 'U' then some PTE_U
  else if bit = 'D' then some PTE_D
  else none

/-- The function `mon_pmsetpermisionbit(argc, argv, set)`: the value returned and the
kernel state afterwards. The test `!(uint32_t) va > KERNBASE` is read as C parses it,
`(!(uint32_t) va) > KERNBASE`. -/
def mon_pmsetpermisionbit (env : Env) (argc : Int) (argv : List (List Char)) (set : Int)
    (k : Kernel) : Int × Kernel :=
  if ¬ (argc > 2 ∧ argc < 4) then (1, k)
  else
    let va := u32 (env.strtol (argv.getD 1 []) 16)
    if (if va = 0 then 1 else 0) > KERNBASE then (1, k)
    else
      match permBit ((argv.getD 2 []).headD NUL) with
      | none => (1, k)
      | some perm =>
        match env.pgdir_walk va with
        | none => (1, k)
        | some pte =>
          let k1 : Kernel :=
            { k with mem := write32 k.mem pte (read32 k.mem pte &&& (4294967295 ^^^ perm)) }
          let k2 : Kernel :=
            if set ≠ 0 then { k1 with mem := write32 k1.mem pte (read32 k1.mem pte ||| perm) }
            else k1
          (0, k2)

/-- The address argument of the permission editor as it parses it:
`(uint32_t) strtol(argv[1], NULL, 16)`. -/
def pmAddr (env : Env) (argv : List (List Char)) : Nat :=
  u32 (env.strtol (argv.getD 1 []) 16)

/-- The permission-code argument of the permission editor as it reads it: `*argv[2]`. -/
def pmCode (argv : List (List Char)) : Char := (argv.getD 2 []).headD NUL

/-- The handler `mon_pmsetperm`. The second `cprintf` is not part of the `if`. -/
def mon_pmsetperm (env : Env) (_fuel : Nat) (argc : Int) (argv : List (List Char))
    (_tf : Nat) (k : Kernel) : Outcome :=
  match mon_pmsetpermisionbit env argc argv 1 k with
  | (r, k1) =>
    let k2 := if r ≠ 0 then cprintf k1 "\nWrong arguments" [] else k1
    .ret 0 (cprintf k2 "\nUsage :\n    pmsetperm [hex virtual adress] [P|W|D|U]\n" [])

/-- The handler `mon_pmclearperm`. The second `cprintf` is not part of the `if`. -/
def mon_pmclearperm (env : Env) (_fuel : Nat) (argc : Int) (argv : List (List Char))
    (_tf : Nat) (k : Kernel) : Outcome :=
  match mon_pmsetpermisionbit env argc argv 0 k with
  | (r, k1) =>
    let k2 := if r ≠ 0 then cprintf k1 "\nWrong arguments" [] else k1
    .ret 0 (cprintf k2 "\nUsage :\n    pmclearperm [hex virtual adress] [P|W|D|U]\n" [])

/-! ## The command table and the interpreter -/

/-- The `struct Command`: a handler takes the fuel for its loops, `argc`, the strings
`argv[0..]`, the trap-frame pointer, and the kernel state. -/
structure Command where
  name : List Char
  desc : List Char
  func : Nat → Int → List (List Char) → Nat → Kernel → Outcome

/-- The table `commands` of `monitor.c`. -/
def commands (env : Env) : List Command :=
  [ { name := "help".data, desc := "Display this list of commands".data,
      func := mon_help },
    { name := "kerninfo".data, desc := "Display information about the kernel".data,
      func := mon_kerninfo env },
    { name := "backtrace".data, desc := "Display a list of call frames".data,
      func := mon_backtrace env },
    { name := "showmappings".data, desc := "Display the physical page mappings".data,
      func := mon_showmappings env },
    { name := "dump".data, desc := "Display the content of a memory range".data,
      func := mon_memorydump env },
    { name := "pmsetperm".data, desc := "Sets page mapping permissions bit".data,
      func := mon_pmsetperm env },
    { name := "pmclearperm".data, desc := "Sets page mapping permissions bit".data,
      func := mon_pmclearperm env } ]

/-- The lookup loop `for (i = 0; i < NCOMMANDS; i++)` of `runcmd` over the table rows
from the current index on, followed by the "Unknown command" exit. -/
def dispatch (fuel : Nat) (argc : Int) (argv : List (List Char)) (tf : Nat) (k : Kernel) :
    List Command → Outcome
  | [] => .ret 0 (cprintf k "Unknown command '%s'\n" [.str (argv.getD 0 [])])
  | c :: cs =>
    if strcmp (argv.getD 0 []) c.name = 0 then c.func fuel argc argv tf k
    else dispatch fuel argc argv tf k cs

/-- The function `runcmd(buf, tf)` over an arbitrary command table. -/
def runcmdWith (cmds : List Command) (fuel : Nat) (buf : List Char) (tf : Nat)
    (k : Kernel) : Outcome :=
  match parseArgs buf with
  | .unfinished => .timeout k
  | .tooMany => .ret 0 (cprintf k "Too many arguments (max %d)\n" [.int MAXARGS])
  | .parsed mem argv =>
    if argv.length = 0 then .ret 0 k
    else dispatch fuel argv.length (argStrings mem argv) tf k cmds

/-- The function `runcmd(buf, tf)` of `monitor.c`. -/
def runcmd (env : Env) (fuel : Nat) (buf : List Char) (tf : Nat) (k : Kernel) : Outcome :=
  runcmdWith (commands env) fuel buf tf k

/-- How a run of `monitor` over a finite list of `readline` results ends. -/
inductive Session where
  /-- The loop was left through `break`. -/
  | exited (k : Kernel)
  /-- Every line was consumed and the loop is back in `readline`. -/
  | reading (k : Kernel)
  /-- A command did not return. -/
  | stuck (o : Outcome)

/-- The loop `while (1)` of `monitor` over the successive results of `readline`
(`none` is a null result). -/
def monitorLoop (env : Env) (fuel : Nat) (tf : Nat) : List (Option (List Char)) → Kernel → Session
  | [], k => .reading k
  | none :: ls, k => monitorLoop env fuel tf ls k
  | some buf :: ls, k =>
    match runcmd env fuel buf tf k with
    | .ret rc k1 => if rc < 0 then .exited k1 else monitorLoop env fuel tf ls k1
    | o => .stuck o

/-- The function `monitor(tf)`. -/
def monitor (env : Env) (fuel : Nat) (tf : Nat) (input : List (Option (List Char)))
    (k : Kernel) : Session :=
  let k := cprintf k "Welcome to the JOS kernel monitor!\n" []
  let k := cprintf k "Type 'help' for a list of commands.\n" []
  monitorLoop env fuel tf input k

/-! ## A concrete machine for the examples -/

/-- The value of a digit character in bases up to 36, if it is one. -/
def digitOf (c : Char) : Option Nat :=
  if 48 ≤ c.toNat ∧ c.toNat ≤ 57 then some (c.toNat - 48)
  else if 97 ≤ c.toNat ∧ c.toNat ≤ 122 then some (c.toNat - 97 + 10)
  else if 65 ≤ c.toNat ∧ c.toNat ≤ 90 then some (c.toNat - 65 + 10)
  else none

/-- The digit loop of the stand-in for `strtol`: reads digits of the given base and stops
at the first other character. -/
def sampleDigits (base : Int) : List Char → Int → Int
  | [], val => val
  | c :: cs, val =>
    match digitOf c with
    | some d => if (d : Int) < base then sampleDigits base cs (i32 (val * base + d)) else val
    | none => val

/-- A plain digit reader that stands in for `strtol` in the concrete examples. -/
def sampleStrtol (s : List Char) (base : Int) : Int := sampleDigits base s 0

/-- The environment of the concrete examples. The pages at `0x1000`, `0x2000` and
`0xf0000000` have page-table entries, stored at `0x3004`, `0x3008` and `0x3000`. -/
def sampleEnv : Env where
  strtol := sampleStrtol
  pgdir_walk := fun va =>
    if va / 4096 = 983040 then some 12288
    else if va / 4096 = 1 then some 12292
    else if va / 4096 = 2 then some 12296
    else none
  KADDR := fun pa => some (u32 ((pa : Int) + KERNBASE))
  debuginfo_eip := fun eip =>
    { eip_file := "<unknown>".data, eip_line := 0, eip_fn_name := "<unknown>".data,
      eip_fn_namelen := 9, eip_fn_addr := eip }
  read_ebp := 8192
  sym_start := 4027580428
  sym_etext := 4027587123
  sym_edata := 4027666432
  sym_end := 4027668224

/-- A second environment for the concrete examples, in which every page has a page-table
entry: the entry of page `n` is stored at `0x400000 + 4 * n`. -/
def flatEnv : Env :=
  { sampleEnv with pgdir_walk := fun va => some (4194304 + 4 * (va / 4096)) }

/-- The kernel state of the concrete examples: the entry at `0x3000` is `0x00000003`, the
entry at `0x3004` is `0x00005007`, every other byte is zero, and the console is empty. -/
def sampleKernel : Kernel where
  mem := fun a => if a = 12288 then 3 else if a = 12292 then 7 else if a = 12293 then 80 else 0
  console := []

/-- A kernel state whose memory holds, at every address, the low byte of the address. -/
def rampKernel : Kernel where
  mem := fun a => a % 256
  console := []

/-- A kernel state with two stack frames: the frame at `0x2000` holds the saved frame
pointer `0x2100` and the return address `0x10`, the frame at `0x2100` holds the sentinel
and the return address `0x20`. -/
def stackKernel : Kernel where
  mem := fun a =>
    if a = 8193 then 33 else if a = 8196 then 16 else if a = 8200 then 1
    else if a = 8452 then 32 else 0
  console := []

/-- A kernel state for `flatEnv` in which every page has a present and writable entry:
the entry of a kernel page `KERNBASE + n * 4096` is `n * 4096 + 3` (the page maps the
physical page `n`, as the direct mapping of the kernel does) and the entry of a page
`n * 4096` below `KERNBASE` is `n * 4096 + 3`. The entries fill the addresses `0x400000` to
`0x7fffff`; every other byte is zero. -/
def directKernel : Kernel where
  mem := fun a =>
    if 4194304 ≤ a ∧ a < 8388608 then
      ((if 983040 ≤ (a - 4194304) / 4 then (a - 4194304) / 4 - 983040 else (a - 4194304) / 4)
        * 4096 + 3) / 256 ^ ((a - 4194304) % 4) % 256
    else 0
  console := []

/-! # Theorems -/

/-! ## The argument parser -/

theorem isWhitespace_NUL : isWhitespace NUL = false := by decide

theorem isTok_NUL : isTok NUL = false := by decide

theorem blank_iff (c : Char) :
    (c ≠ NUL ∧ (strchr WHITESPACE c).isSome = true) ↔ isWhitespace c = true := by
  by_cases h0 : c = NUL
  · subst h0; simp [isWhitespace_NUL]
  · by_cases h1 : c = '\t'
    · subst h1; decide
    · by_cases h2 : c = '\r'
      · subst h2; decide
      · by_cases h3 : c = '\n'
        · subst h3; decide
        · by_cases h4 : c = ' '
          · subst h4; decide
          · have e1 : ('\t' = c) = False := by simpa using fun h => h1 h.symm
            have e2 : ('\r' = c) = False := by simpa using fun h => h2 h.symm
            have e3 : ('\n' = c) = False := by simpa using fun h => h3 h.symm
            have e4 : (' ' = c) = False := by simpa using fun h => h4 h.symm
            have n1 : ('\t' = NUL) = False := by decide
            have n2 : ('\r' = NUL) = False := by decide
            have n3 : ('\n' = NUL) = False := by decide
            have n4 : (' ' = NUL) = False := by decide
            simp [strchr, WHITESPACE, isWhitespace, h0, h1, h2, h3, h4, e1, e2, e3, e4,
              n1, n2, n3, n4]

theorem argchar_iff (c : Char) :
    (c ≠ NUL ∧ ¬ (strchr WHITESPACE c).isSome = true) ↔ isTok c = true := by
  by_cases h0 : c = NUL
  · subst h0; simp [isTok_NUL]
  · have hb := blank_iff c
    simp only [ne_eq, h0, not_false_eq_true, true_and] at hb
    simp [isTok, h0, hb]

theorem gobble_eq (rest : List Char) : ∀ done : List Char,
    gobble done rest =
      (done ++ List.replicate (rest.takeWhile isWhitespace).length NUL,
        rest.dropWhile isWhitespace) := by
  induction rest with
  | nil => intro done; simp [gobble]
  | cons c cs ih =>
    intro done
    by_cases h : isWhitespace c = true
    · have hc := (blank_iff c).2 h
      simp [gobble, hc.1, hc.2, h, ih, List.replicate_succ]
    · have hc : ¬ (c ≠ NUL ∧ (strchr WHITESPACE c).isSome = true) := fun x => h ((blank_iff c).1 x)
      simp only [gobble, hc, if_false]
      simp [h]

theorem scanArg_eq (rest : List Char) : ∀ done : List Char,
    scanArg done rest = (done ++ rest.takeWhile isTok, rest.dropWhile isTok) := by
  induction rest with
  | nil => intro done; simp [scanArg]
  | cons c cs ih =>
    intro done
    by_cases h : isTok c = true
    · have hc := (argchar_iff c).2 h
      rw [scanArg, if_pos hc, ih]
      simp [h]
    · have hc : ¬ (c ≠ NUL ∧ ¬ (strchr WHITESPACE c).isSome = true) :=
        fun x => h ((argchar_iff c).1 x)
      simp only [scanArg, hc, if_false]
      simp [h]

theorem isTok_iff (c : Char) : isTok c = true ↔ c ≠ NUL ∧ isWhitespace c = false := by
  simp [isTok]

theorem isWhitespace_ne_NUL {c : Char} (h : isWhitespace c = true) : c ≠ NUL := by
  intro e; subst e; simp [isWhitespace_NUL] at h

theorem cstr_cons_NUL (cs : List Char) : cstr (NUL :: cs) = [] := by
  simp [cstr]

theorem cstr_cons_ne {c : Char} (cs : List Char) (h : c ≠ NUL) :
    cstr (c :: cs) = c :: cstr cs := by
  simp [cstr, h]

theorem lineTokens_nil : lineTokens [] = [] := by
  simp [lineTokens, cstr]

theorem lineTokens_NUL (cs : List Char) : lineTokens (NUL :: cs) = [] := by
  simp [lineTokens, cstr_cons_NUL]

theorem lineTokens_ws {c : Char} (cs : List Char) (h : isWhitespace c = true) :
    lineTokens (c :: cs) = lineTokens cs := by
  simp [lineTokens, cstr_cons_ne cs (isWhitespace_ne_NUL h), List.splitOnP_cons, h]

theorem lineTokens_dropWhile (l : List Char) :
    lineTokens (l.dropWhile isWhitespace) = lineTokens l := by
  induction l with
  | nil => rfl
  | cons c cs ih =>
    by_cases h : isWhitespace c = true
    · rw [List.dropWhile_cons_of_pos h, ih, lineTokens_ws cs h]
    · rw [List.dropWhile_cons_of_neg h]

theorem splitOnP_tok (cs : List Char) : ∀ c : Char, isTok c = true →
    ∃ T, (cstr (c :: cs)).splitOnP isWhitespace = (c :: cs.takeWhile isTok) :: T ∧
      T.filter (fun t => t ≠ []) = lineTokens (cs.dropWhile isTok) := by
  induction cs with
  | nil =>
    intro c hc
    have h := (isTok_iff c).1 hc
    refine ⟨[], ?_, ?_⟩
    · rw [cstr_cons_ne [] h.1]
      simp [cstr, List.splitOnP_cons, h.2, List.modifyHead]
    · simp [lineTokens_nil]
  | cons d ds ih =>
    intro c hc
    have h := (isTok_iff c).1 hc
    by_cases hd : isTok d = true
    · obtain ⟨T, hT, hF⟩ := ih d hd
      refine ⟨T, ?_, ?_⟩
      · rw [cstr_cons_ne _ h.1, List.splitOnP_cons, hT]
        simp [h.2, List.modifyHead, hd]
      · simpa [hd] using hF
    · by_cases hn : d = NUL
      · subst hn
        refine ⟨[], ?_, ?_⟩
        · simp [cstr_cons_ne _ h.1, cstr_cons_NUL, List.splitOnP_cons, h.2, List.modifyHead,
            isTok_NUL]
        · simp [isTok_NUL, lineTokens_NUL]
      · have hw : isWhitespace d = true := by
          by_contra hw
          exact hd ((isTok_iff d).2 ⟨hn, by simpa using hw⟩)
        refine ⟨(cstr ds).splitOnP isWhitespace, ?_, ?_⟩
        · rw [cstr_cons_ne _ h.1, cstr_cons_ne _ hn, List.splitOnP_cons, List.splitOnP_cons]
          simp [h.2, hw, List.modifyHead, hd]
        · rw [List.dropWhile_cons_of_neg hd, lineTokens_ws ds hw]
          rfl

theorem lineTokens_tok {c : Char} (cs : List Char) (h : isTok c = true) :
    lineTokens (c :: cs) = (c :: cs.takeWhile isTok) :: lineTokens (cs.dropWhile isTok) := by
  obtain ⟨T, hT, hF⟩ := splitOnP_tok cs c h
  have e : lineTokens (c :: cs) =
      ((cstr (c :: cs)).splitOnP isWhitespace).filter (fun t => t ≠ []) := rfl
  rw [e, hT, List.filter_cons, hF]
  simp

theorem headD_dropWhile_isWhitespace (l : List Char) :
    isWhitespace ((l.dropWhile isWhitespace).headD NUL) = false := by
  induction l with
  | nil => exact isWhitespace_NUL
  | cons c cs ih =>
    by_cases h : isWhitespace c = true
    · rw [List.dropWhile_cons_of_pos h]; exact ih
    · rw [List.dropWhile_cons_of_neg h]; simpa using h

theorem headD_dropWhile_isTok (l : List Char) :
    isTok ((l.dropWhile isTok).headD NUL) = false := by
  induction l with
  | nil => exact isTok_NUL
  | cons c cs ih =>
    by_cases h : isTok c = true
    · rw [List.dropWhile_cons_of_pos h]; exact ih
    · rw [List.dropWhile_cons_of_neg h]; simpa using h

theorem length_dropWhile_le (p : Char → Bool) (l : List Char) :
    (l.dropWhile p).length ≤ l.length := by
  induction l with
  | nil => simp
  | cons c cs ih =>
    by_cases h : p c = true
    · rw [List.dropWhile_cons_of_pos h]; simp; omega
    · rw [List.dropWhile_cons_of_neg h]

theorem cstr_of_headD {tl : List Char} (h : tl.headD NUL = NUL) : cstr tl = [] := by
  cases tl with
  | nil => rfl
  | cons x xs =>
    have hx : x = NUL := by simpa using h
    subst hx
    exact cstr_cons_NUL xs

theorem cstr_append_tok (t tl : List Char) (ht : ∀ x ∈ t, x ≠ NUL)
    (h : tl.headD NUL = NUL) : cstr (t ++ tl) = t := by
  induction t with
  | nil => simpa using cstr_of_headD h
  | cons x xs ih =>
    have hx : x ≠ NUL := ht x (by simp)
    rw [List.cons_append, cstr_cons_ne _ hx, ih (fun y hy => ht y (by simp [hy]))]

theorem cstrAt_append (done tl : List Char) (q : Nat) :
    cstrAt (done ++ tl) (q + done.length) = cstrAt tl q := by
  unfold cstrAt
  rw [Nat.add_comm, List.drop_append]

theorem headD_replicate_append (k : Nat) (r : List Char) (h : r.headD NUL = NUL) :
    (List.replicate k NUL ++ r).headD NUL = NUL := by
  cases k with
  | zero => simpa using h
  | succ k => simp [List.replicate_succ]

theorem takeWhile_isTok_ne_NUL (l : List Char) : ∀ x ∈ l.takeWhile isTok, x ≠ NUL := by
  intro x hx
  have := List.mem_takeWhile_imp hx
  exact ((isTok_iff x).1 this).1

theorem lineTokens_of_headD {r : List Char} (h : r.headD NUL = NUL) : lineTokens r = [] := by
  cases r with
  | nil => exact lineTokens_nil
  | cons x xs =>
    have hx : x = NUL := by simpa using h
    subst hx
    exact lineTokens_NUL xs

theorem parseLoop_parsed : ∀ (n : Nat) (rest done : List Char) (argv : List Nat),
    rest.length < n → argv.length + (lineTokens rest).length ≤ 15 →
    ∃ (tl : List Char) (ptrs : List Nat), parseLoop n done rest argv
        = .parsed (done ++ tl) (argv ++ ptrs.map (fun q => q + done.length))
      ∧ ptrs.map (cstrAt tl) = lineTokens rest
      ∧ (isTok (rest.headD NUL) = false → tl.headD NUL = NUL) := by
  intro n
  induction n with
  | zero => intro rest done argv h; omega
  | succ n ih =>
    intro rest done argv hlen htok
    have hr1 := lineTokens_dropWhile rest
    have hw := headD_dropWhile_isWhitespace rest
    have hl1 := length_dropWhile_le isWhitespace rest
    generalize hk : (rest.takeWhile isWhitespace).length = k
    generalize hr : rest.dropWhile isWhitespace = r1 at hr1 hw hl1
    by_cases hN : r1.headD NUL = NUL
    · refine ⟨List.replicate k NUL ++ r1, [], ?_, ?_, ?_⟩
      · simp only [parseLoop, gobble_eq, hk, hr, hN, if_true, List.append_assoc,
          List.map_nil, List.append_nil]
      · rw [← hr1, lineTokens_of_headD hN]; rfl
      · intro _; exact headD_replicate_append k r1 hN
    · cases r1 with
      | nil => exact absurd rfl hN
      | cons c cs =>
        have hc0 : c ≠ NUL := by simpa using hN
        have hc : isTok c = true := (isTok_iff c).2 ⟨hc0, by simpa using hw⟩
        have htk := lineTokens_tok cs hc
        rw [hr1] at htk
        rw [htk] at htok
        simp only [List.length_cons] at htok hl1
        have hlen2 : (cs.dropWhile isTok).length < n := by
          have := length_dropWhile_le isTok cs
          omega
        obtain ⟨tl2, ptrs2, h1, h2, h3⟩ :=
          ih (cs.dropWhile isTok) ((done ++ List.replicate k NUL) ++ (c :: cs.takeWhile isTok))
            (argv ++ [(done ++ List.replicate k NUL).length])
            hlen2 (by simp only [List.length_append, List.length_singleton]; omega)
        have htl2 : tl2.headD NUL = NUL := h3 (headD_dropWhile_isTok cs)
        refine ⟨List.replicate k NUL ++ ((c :: cs.takeWhile isTok) ++ tl2),
          k :: ptrs2.map (fun q => q + (k + (cs.takeWhile isTok).length + 1)), ?_, ?_, ?_⟩
        · have hne : argv.length ≠ MAXARGS - 1 := by simp only [MAXARGS]; omega
          simp only [parseLoop, gobble_eq, hk, hr, scanArg_eq, List.headD_cons, hc0, hne,
            if_false, List.takeWhile_cons_of_pos hc, List.dropWhile_cons_of_pos hc, h1]
          congr 1
          · simp
          · simp [List.map_map, Function.comp_def]
            constructor
            · omega
            · intro a _; omega
        · rw [htk]
          simp only [List.map_cons, List.map_map]
          congr 1
          · have e : cstrAt (List.replicate k NUL ++ (c :: List.takeWhile isTok cs ++ tl2)) k
                = cstr ((c :: List.takeWhile isTok cs) ++ tl2) := by
              have := cstrAt_append (List.replicate k NUL)
                (c :: List.takeWhile isTok cs ++ tl2) 0
              simp [cstrAt]
            rw [e]
            apply cstr_append_tok _ _ _ htl2
            intro x hx
            rcases List.mem_cons.1 hx with hx | hx
            · exact hx ▸ hc0
            · exact takeWhile_isTok_ne_NUL cs x hx
          · rw [← h2]
            apply List.map_congr_left
            intro q _
            have e1 := cstrAt_append (List.replicate k NUL)
                (c :: List.takeWhile isTok cs ++ tl2) (q + ((cs.takeWhile isTok).length + 1))
            have e2 := cstrAt_append (c :: List.takeWhile isTok cs) tl2 q
            simp only [List.length_replicate, List.length_cons] at e1 e2
            simp only [Function.comp_apply]
            rw [show q + (k + (cs.takeWhile isTok).length + 1)
              = q + ((cs.takeWhile isTok).length + 1) + k by omega, e1, e2]
        · intro _
          cases k with
          | zero =>
            have : rest = c :: cs := by
              have hh := List.takeWhile_append_dropWhile isWhitespace rest
              rw [hr] at hh
              have : rest.takeWhile isWhitespace = [] := List.length_eq_zero.1 hk
              rw [this] at hh
              simpa using hh.symm
            subst this
            simp_all
          | succ k => simp [List.replicate_succ]

theorem parseLoop_tooMany : ∀ (n : Nat) (rest done : List Char) (argv : List Nat),
    rest.length < n → argv.length ≤ 15 → 15 < argv.length + (lineTokens rest).length →
    parseLoop n done rest argv = .tooMany := by
  intro n
  induction n with
  | zero => intro rest done argv h; omega
  | succ n ih =>
    intro rest done argv hlen hargv htok
    have hr1 := lineTokens_dropWhile rest
    have hw := headD_dropWhile_isWhitespace rest
    have hl1 := length_dropWhile_le isWhitespace rest
    generalize hk : (rest.takeWhile isWhitespace).length = k
    generalize hr : rest.dropWhile isWhitespace = r1 at hr1 hw hl1
    by_cases hN : r1.headD NUL = NUL
    · rw [← hr1, lineTokens_of_headD hN] at htok
      simp at htok
      omega
    · cases r1 with
      | nil => exact absurd rfl hN
      | cons c cs =>
        have hc0 : c ≠ NUL := by simpa using hN
        have hc : isTok c = true := (isTok_iff c).2 ⟨hc0, by simpa using hw⟩
        have htk := lineTokens_tok cs hc
        rw [hr1] at htk
        rw [htk] at htok
        simp only [List.length_cons] at htok hl1
        by_cases hfull : argv.length = MAXARGS - 1
        · simp only [parseLoop, gobble_eq, hk, hr, List.headD_cons, hc0, hfull, if_true,
            if_false]
        · have hlen2 : (cs.dropWhile isTok).length < n := by
            have := length_dropWhile_le isTok cs
            omega
          have hne : argv.length ≠ 15 := by simpa [MAXARGS] using hfull
          have h1 := ih (cs.dropWhile isTok)
            ((done ++ List.replicate k NUL) ++ (c :: cs.takeWhile isTok))
            (argv ++ [(done ++ List.replicate k NUL).length]) hlen2
            (by simp only [List.length_append, List.length_singleton]; omega)
            (by simp only [List.length_append, List.length_singleton]; omega)
          simp only [parseLoop, gobble_eq, hk, hr, scanArg_eq, List.headD_cons, hc0, hfull,
            if_false, List.takeWhile_cons_of_pos hc, List.dropWhile_cons_of_pos hc, h1]

theorem lineTokens_isTok : ∀ (n : Nat) (line : List Char), line.length < n →
    ∀ t ∈ lineTokens line, t ≠ [] ∧ ∀ x ∈ t, isTok x = true := by
  intro n
  induction n with
  | zero => intro line h; omega
  | succ n ih =>
    intro line hlen t ht
    have hr1 := lineTokens_dropWhile line
    have hw := headD_dropWhile_isWhitespace line
    have hl1 := length_dropWhile_le isWhitespace line
    generalize hr : line.dropWhile isWhitespace = r1 at hr1 hw hl1
    by_cases hN : r1.headD NUL = NUL
    · rw [← hr1, lineTokens_of_headD hN] at ht
      simp at ht
    · cases r1 with
      | nil => exact absurd rfl hN
      | cons c cs =>
        have hc0 : c ≠ NUL := by simpa using hN
        have hc : isTok c = true := (isTok_iff c).2 ⟨hc0, by simpa using hw⟩
        rw [← hr1, lineTokens_tok cs hc] at ht
        simp only [List.length_cons] at hl1
        rcases List.mem_cons.1 ht with h | h
        · subst h
          refine ⟨by simp, ?_⟩
          intro x hx
          rcases List.mem_cons.1 hx with hx | hx
          · exact hx ▸ hc
          · exact List.mem_takeWhile_imp hx
        · have := length_dropWhile_le isTok cs
          exact ih (cs.dropWhile isTok) (by omega) t h

theorem lineTokens_mem {line t : List Char} (ht : t ∈ lineTokens line) :
    t ≠ [] ∧ ∀ x ∈ t, x ≠ NUL ∧ isWhitespace x = false := by
  have h := lineTokens_isTok (line.length + 1) line (by omega) t ht
  exact ⟨h.1, fun x hx => (isTok_iff x).1 (h.2 x hx)⟩

theorem lineTokens_all_ws (line : List Char) (h : ∀ c ∈ line, isWhitespace c = true) :
    lineTokens line = [] := by
  induction line with
  | nil => exact lineTokens_nil
  | cons c cs ih =>
    rw [lineTokens_ws cs (h c (by simp))]
    exact ih (fun x hx => h x (by simp [hx]))

theorem parseArgs_spec (line : List Char) (h : (lineTokens line).length ≤ 15) :
    ∃ (mem : List Char) (argv : List Nat), parseArgs line = .parsed mem argv ∧
      argStrings mem argv = lineTokens line := by
  obtain ⟨tl, ptrs, h1, h2, _⟩ :=
    parseLoop_parsed (line.length + 1) line [] [] (by omega) (by simpa using h)
  refine ⟨tl, ptrs, ?_, ?_⟩
  · simpa [parseArgs] using h1
  · simpa [argStrings] using h2

theorem parseArgs_tooMany (line : List Char) (h : 15 < (lineTokens line).length) :
    parseArgs line = .tooMany :=
  parseLoop_tooMany (line.length + 1) line [] [] (by omega) (by simp) (by simpa using h)

/-- The parsing loop always leaves through `break` or through the "Too many arguments"
return: the iteration budget of `parseArgs` is never exhausted. -/
theorem parseArgs_finished (line : List Char) : parseArgs line ≠ .unfinished := by
  by_cases h : (lineTokens line).length ≤ 15
  · obtain ⟨mem, argv, h1, _⟩ := parseArgs_spec line h
    rw [h1]; exact fun e => Parse.noConfusion e
  · rw [parseArgs_tooMany line (by omega)]; exact fun e => Parse.noConfusion e

/-- Claim C1. For every input line with at most 15 tokens (maximal runs of characters other
than tab, CR, LF and space), the parsing loop of `runcmd` ends at `break`, the strings
`argv[0..argc-1]` are exactly the tokens of the line in their order, `argc` is the number of
tokens, no argument is the empty string, an empty or all-whitespace line gives `argc = 0`,
and these `argc` and `argv` are what the lookup stage of `runcmd` receives. -/
theorem runcmd_tokenizer (line : List Char) (h : (lineTokens line).length ≤ 15) :
    ∃ (mem : List Char) (argv : List Nat),
      parseArgs line = .parsed mem argv ∧
      argStrings mem argv = lineTokens line ∧
      argv.length = (lineTokens line).length ∧
      (∀ a ∈ argStrings mem argv, a ≠ []) ∧
      ((∀ c ∈ line, isWhitespace c = true) → argv.length = 0) ∧
      (∀ (cmds : List Command) (fuel tf : Nat) (k : Kernel),
        runcmdWith cmds fuel line tf k =
          if argv.length = 0 then .ret 0 k
          else dispatch fuel argv.length (argStrings mem argv) tf k cmds) := by
  obtain ⟨mem, argv, h1, h2⟩ := parseArgs_spec line h
  have hlen : argv.length = (lineTokens line).length := by
    rw [← h2]; simp [argStrings]
  refine ⟨mem, argv, h1, h2, hlen, ?_, ?_, ?_⟩
  · intro a ha
    rw [h2] at ha
    exact (lineTokens_mem ha).1
  · intro hws
    rw [hlen, lineTokens_all_ws line hws]; rfl
  · intro cmds fuel tf k
    simp only [runcmdWith, h1]

/-- Witness of `runcmd_tokenizer` at the line `"  dump  f0000000\tf0000010 "`. -/
theorem runcmd_tokenizer_witness :
    ∃ (mem : List Char) (argv : List Nat),
      parseArgs "  dump  f0000000\tf0000010 ".data = .parsed mem argv ∧
      argStrings mem argv = lineTokens "  dump  f0000000\tf0000010 ".data ∧
      argv.length = (lineTokens "  dump  f0000000\tf0000010 ".data).length ∧
      (∀ a ∈ argStrings mem argv, a ≠ []) ∧
      ((∀ c ∈ "  dump  f0000000\tf0000010 ".data, isWhitespace c = true) → argv.length = 0) ∧
      (∀ (cmds : List Command) (fuel tf : Nat) (k : Kernel),
        runcmdWith cmds fuel "  dump  f0000000\tf0000010 ".data tf k =
          if argv.length = 0 then .ret 0 k
          else dispatch fuel argv.length (argStrings mem argv) tf k cmds) :=
  runcmd_tokenizer "  dump  f0000000\tf0000010 ".data (by decide)

/-- Claim C2, as amended. The parsing loop of `runcmd` takes the "Too many arguments" exit
exactly when the line has more than `MAXARGS - 1 = 15` tokens; `runcmd` then prints that
message, calls no handler (the result does not depend on the command table) and returns 0;
a line with at most 15 tokens is handed to the lookup stage with all its tokens. -/
theorem runcmd_too_many (line : List Char) :
    (parseArgs line = .tooMany ↔ MAXARGS - 1 < (lineTokens line).length) ∧
    (MAXARGS - 1 < (lineTokens line).length →
      ∀ (cmds : List Command) (fuel tf : Nat) (k : Kernel),
        runcmdWith cmds fuel line tf k
          = .ret 0 (cprintf k "Too many arguments (max %d)\n" [.int MAXARGS])) ∧
    ((lineTokens line).length ≤ MAXARGS - 1 →
      ∀ (cmds : List Command) (fuel tf : Nat) (k : Kernel),
        runcmdWith cmds fuel line tf k =
          if (lineTokens line).length = 0 then .ret 0 k
          else dispatch fuel (lineTokens line).length (lineTokens line) tf k cmds) := by
  have hM : MAXARGS - 1 = 15 := rfl
  rw [hM]
  refine ⟨⟨?_, parseArgs_tooMany line⟩, ?_, ?_⟩
  · intro h
    by_contra hle
    obtain ⟨mem, argv, h1, _⟩ := parseArgs_spec line (by omega)
    rw [h1] at h
    exact Parse.noConfusion h
  · intro h cmds fuel tf k
    simp only [runcmdWith, parseArgs_tooMany line h]
  · intro h cmds fuel tf k
    obtain ⟨mem, argv, h1, h2⟩ := parseArgs_spec line h
    have hlen : argv.length = (lineTokens line).length := by
      rw [← h2]; simp [argStrings]
    simp only [runcmdWith, h1, h2, hlen]

/-- Counterexample to claim C2 as stated: a line of exactly 16 tokens is not dispatched; it
is rejected with "Too many arguments" and `runcmd` returns 0. -/
theorem runcmd_sixteen_tokens_rejected :
    (lineTokens "help b c d e f g h i j k l m n o p".data).length = 16 ∧
    parseArgs "help b c d e f g h i j k l m n o p".data = .tooMany ∧
    (runcmd sampleEnv 100 "help b c d e f g h i j k l m n o p".data 0 sampleKernel).rc = some 0 ∧
    (runcmd sampleEnv 100 "help b c d e f g h i j k l m n o p".data 0 sampleKernel).state.console
      = [{ fmt := "Too many arguments (max %d)\n", args := [.int 16] }] := by
  refine ⟨by decide, by decide, ?_, ?_⟩
  · rfl
  · rfl

theorem lineTokens_ws_append (ws r : List Char) (h : ∀ c ∈ ws, isWhitespace c = true) :
    lineTokens (ws ++ r) = lineTokens r := by
  induction ws with
  | nil => rfl
  | cons c cs ih =>
    rw [List.cons_append, lineTokens_ws _ (h c (by simp))]
    exact ih (fun x hx => h x (by simp [hx]))

theorem takeWhile_isTok_append (t r : List Char) (ht : ∀ c ∈ t, isTok c = true)
    (hr : isTok (r.headD NUL) = false) :
    (t ++ r).takeWhile isTok = t ∧ (t ++ r).dropWhile isTok = r := by
  induction t with
  | nil =>
    cases r with
    | nil => simp
    | cons x xs =>
      have hx : isTok x = false := by simpa using hr
      simp [hx]
  | cons c cs ih =>
    have hc := ht c (by simp)
    have := ih (fun x hx => ht x (by simp [hx]))
    simp [hc, this.1, this.2]

theorem lineTokens_tok_append (t r : List Char) (hne : t ≠ [])
    (ht : ∀ c ∈ t, isTok c = true) (hr : isTok (r.headD NUL) = false) :
    lineTokens (t ++ r) = t :: lineTokens r := by
  cases t with
  | nil => exact absurd rfl hne
  | cons c cs =>
    have hc := ht c (by simp)
    have h := takeWhile_isTok_append cs r (fun x hx => ht x (by simp [hx])) hr
    rw [List.cons_append, lineTokens_tok _ hc, h.1, h.2]

theorem isTok_of_isWhitespace {c : Char} (h : isWhitespace c = true) : isTok c = false := by
  simp [isTok, h]

theorem lineTokens_more (trail : List Char) (htrail : ∀ c ∈ trail, isWhitespace c = true) :
    ∀ more : List (List Char × List Char),
    (∀ it ∈ more, it.1 ≠ [] ∧ (∀ c ∈ it.1, isWhitespace c = true) ∧
      it.2 ≠ [] ∧ ∀ c ∈ it.2, isTok c = true) →
    lineTokens (more.foldr (fun it acc => it.1 ++ (it.2 ++ acc)) trail) = more.map Prod.snd ∧
    isTok ((more.foldr (fun it acc => it.1 ++ (it.2 ++ acc)) trail).headD NUL) = false := by
  intro more
  induction more with
  | nil =>
    intro _
    refine ⟨lineTokens_all_ws trail htrail, ?_⟩
    cases trail with
    | nil => exact isTok_NUL
    | cons x xs => exact isTok_of_isWhitespace (htrail x (by simp))
  | cons it its ih =>
    intro h
    obtain ⟨h1, h2, h3, h4⟩ := h it (by simp)
    obtain ⟨ih1, ih2⟩ := ih (fun x hx => h x (by simp [hx]))
    constructor
    · simp only [List.foldr_cons, List.map_cons]
      rw [lineTokens_ws_append _ _ h2, lineTokens_tok_append _ _ h3 h4 ih2, ih1]
    · simp only [List.foldr_cons]
      cases hw : it.1 with
      | nil => exact absurd hw h1
      | cons x xs =>
        have : isWhitespace x = true := h2 x (by rw [hw]; simp)
        simpa using isTok_of_isWhitespace this

/-- The tokenizer on a line written out from its parts. If `first` and the tokens of `more`
are non-empty runs of characters that are neither NUL nor whitespace, the separators of
`more` are non-empty runs of whitespace, `lead` and `trail` are (possibly empty) runs of
whitespace, and there are at most 15 tokens, then the parsing loop of `runcmd` ends at
`break` and `argv[0..argc-1]` are exactly these tokens, in order. -/
theorem parseArgs_buildLine (lead first trail : List Char) (more : List (List Char × List Char))
    (hlead : ∀ c ∈ lead, isWhitespace c = true)
    (htrail : ∀ c ∈ trail, isWhitespace c = true)
    (hfirst : first ≠ [] ∧ ∀ c ∈ first, isTok c = true)
    (hmore : ∀ it ∈ more, it.1 ≠ [] ∧ (∀ c ∈ it.1, isWhitespace c = true) ∧
      it.2 ≠ [] ∧ ∀ c ∈ it.2, isTok c = true)
    (h15 : more.length + 1 ≤ 15) :
    ∃ (mem : List Char) (argv : List Nat),
      parseArgs (buildLine lead first more trail) = .parsed mem argv ∧
      argStrings mem argv = first :: more.map Prod.snd := by
  obtain ⟨hm1, hm2⟩ := lineTokens_more trail htrail more hmore
  have htoks : lineTokens (buildLine lead first more trail) = first :: more.map Prod.snd := by
    unfold buildLine
    rw [lineTokens_ws_append _ _ hlead,
      lineTokens_tok_append _ _ hfirst.1 hfirst.2 hm2, hm1]
  obtain ⟨mem, argv, h1, h2⟩ := parseArgs_spec (buildLine lead first more trail)
    (by rw [htoks]; simpa using h15)
  exact ⟨mem, argv, h1, by rw [h2, htoks]⟩

/-- Witness of `parseArgs_buildLine`: the line `" dump\t\t0  10\n"`. -/
theorem parseArgs_buildLine_witness :
    ∃ (mem : List Char) (argv : List Nat),
      parseArgs (buildLine " ".data "dump".data
        [("\t\t".data, "0".data), ("  ".data, "10".data)] "\n".data) = .parsed mem argv ∧
      argStrings mem argv
        = "dump".data :: [("\t\t".data, "0".data), ("  ".data, "10".data)].map Prod.snd :=
  parseArgs_buildLine " ".data "dump".data "\n".data
    [("\t\t".data, "0".data), ("  ".data, "10".data)]
    (by decide) (by decide) (by decide) (by decide) (by decide)

/-! ## Lookup and dispatch -/

theorem Char_toNat_inj {a b : Char} (h : a.toNat = b.toNat) : a = b := by
  rw [← Char.ofNat_toNat a, ← Char.ofNat_toNat b, h]

theorem Char_toNat_eq_zero {a : Char} (h : a.toNat = 0) : a = NUL :=
  Char_toNat_inj (by rw [h]; rfl)

theorem strcmp_eq_zero_iff : ∀ a b : List Char, strcmp a b = 0 ↔ cstr a = cstr b := by
  intro a
  induction a with
  | nil =>
    intro b
    cases b with
    | nil => simp [strcmp]
    | cons q qs =>
      by_cases hq : q = NUL
      · subst hq; simp [strcmp, cstr, NUL]
      · have : q.toNat ≠ 0 := fun h => hq (Char_toNat_eq_zero h)
        simp only [strcmp, cstr_cons_ne qs hq]
        constructor
        · intro h; omega
        · intro h; simp [cstr] at h
  | cons p ps ih =>
    intro b
    cases b with
    | nil =>
      by_cases hp : p = NUL
      · subst hp; simp [strcmp, cstr, NUL]
      · have : p.toNat ≠ 0 := fun h => hp (Char_toNat_eq_zero h)
        simp only [strcmp, cstr_cons_ne ps hp]
        constructor
        · intro h; omega
        · intro h; simp [cstr] at h
    | cons q qs =>
      by_cases hp : p = NUL
      · subst hp
        by_cases hq : q = NUL
        · subst hq; simp [strcmp, cstr_cons_NUL]
        · have : q.toNat ≠ 0 := fun h => hq (Char_toNat_eq_zero h)
          have hN : NUL.toNat = 0 := rfl
          simp only [strcmp, ne_eq, not_true_eq_false, false_and, if_false, cstr_cons_NUL,
            cstr_cons_ne qs hq, hN]
          constructor
          · intro h; omega
          · intro h; simp at h
      · by_cases hpq : p = q
        · subst hpq
          simp only [strcmp, ne_eq, hp, not_false_eq_true, and_self, if_true,
            cstr_cons_ne _ hp, ih qs]
          simp
        · have hne : p.toNat ≠ q.toNat := fun h => hpq (Char_toNat_inj h)
          simp only [strcmp, hpq, and_false, if_false, cstr_cons_ne _ hp]
          constructor
          · intro h; omega
          · intro h
            exfalso
            by_cases hq : q = NUL
            · subst hq; simp [cstr_cons_NUL] at h
            · rw [cstr_cons_ne _ hq] at h
              exact hpq (List.cons.inj h).1

theorem cstr_eq_self {t : List Char} (h : ∀ x ∈ t, x ≠ NUL) : cstr t = t := by
  have := cstr_append_tok t [] h rfl
  simpa using this

theorem dispatch_first (fuel : Nat) (argc : Int) (argv : List (List Char)) (tf : Nat)
    (k : Kernel) (c : Command) (post : List Command) : ∀ pre : List Command,
    (∀ d ∈ pre, strcmp (argv.getD 0 []) d.name ≠ 0) → strcmp (argv.getD 0 []) c.name = 0 →
    dispatch fuel argc argv tf k (pre ++ c :: post) = c.func fuel argc argv tf k := by
  intro pre
  induction pre with
  | nil => intro _ h; simp only [List.nil_append, dispatch, h, if_true]
  | cons d ds ih =>
    intro hpre h
    have hd := hpre d (by simp)
    simp only [List.cons_append, dispatch, hd, if_false]
    exact ih (fun e he => hpre e (by simp [he])) h

theorem dispatch_none (fuel : Nat) (argc : Int) (argv : List (List Char)) (tf : Nat)
    (k : Kernel) : ∀ cmds : List Command,
    (∀ d ∈ cmds, strcmp (argv.getD 0 []) d.name ≠ 0) →
    dispatch fuel argc argv tf k cmds
      = .ret 0 (cprintf k "Unknown command '%s'\n" [.str (argv.getD 0 [])]) := by
  intro cmds
  induction cmds with
  | nil => intro _; rfl
  | cons d ds ih =>
    intro h
    have hd := h d (by simp)
    simp only [dispatch, hd, if_false]
    exact ih (fun e he => h e (by simp [he]))

theorem exists_first_named (t : List Char) : ∀ cmds : List Command,
    (∃ c ∈ cmds, c.name = t) →
    ∃ (pre : List Command) (c1 : Command) (post : List Command),
      cmds = pre ++ c1 :: post ∧ c1.name = t ∧ ∀ d ∈ pre, d.name ≠ t := by
  intro cmds
  induction cmds with
  | nil => rintro ⟨c, hc, _⟩; simp at hc
  | cons d ds ih =>
    rintro ⟨c, hc, hn⟩
    by_cases hd : d.name = t
    · exact ⟨[], d, ds, rfl, hd, by simp⟩
    · have : ∃ c ∈ ds, c.name = t := by
        rcases List.mem_cons.1 hc with h | h
        · subst h; exact absurd hn hd
        · exact ⟨c, h, hn⟩
      obtain ⟨pre, c1, post, h1, h2, h3⟩ := ih this
      refine ⟨d :: pre, c1, post, by simp [h1], h2, ?_⟩
      intro e he
      rcases List.mem_cons.1 he with h | h
      · subst h; exact hd
      · exact h3 e h

theorem commands_names (env : Env) :
    (commands env).map (fun c => (c.name, c.desc)) = commandText := rfl

theorem commands_name_mem (env : Env) {c : Command} (h : c ∈ commands env) :
    c.name ∈ commandText.map Prod.fst := by
  have : (c.name, c.desc) ∈ (commands env).map (fun c => (c.name, c.desc)) :=
    List.mem_map_of_mem _ h
  rw [commands_names] at this
  exact List.mem_map_of_mem Prod.fst this

theorem commandText_cstr : ∀ n ∈ commandText.map Prod.fst, cstr n = n := by decide

theorem commandText_no_proper_initial :
    ∀ a ∈ commandText.map Prod.fst, ∀ b ∈ commandText.map Prod.fst, a <+: b → a = b := by
  decide

theorem commandText_case :
    ∀ a ∈ commandText.map Prod.fst, ∀ b ∈ commandText.map Prod.fst,
      a.map Char.toLower = b.map Char.toLower → a = b := by
  decide

theorem runcmdWith_parsed (cmds : List Command) (fuel tf : Nat) (k : Kernel)
    (line : List Char) (h : (lineTokens line).length ≤ 15) :
    runcmdWith cmds fuel line tf k =
      if (lineTokens line).length = 0 then .ret 0 k
      else dispatch fuel (lineTokens line).length (lineTokens line) tf k cmds := by
  obtain ⟨mem, argv, h1, h2⟩ := parseArgs_spec line h
  have hlen : argv.length = (lineTokens line).length := by
    rw [← h2]; simp [argStrings]
  simp only [runcmdWith, h1, h2, hlen]

theorem strcmp_token_name (env : Env) {line t : List Char} (ht : t ∈ lineTokens line)
    {d : Command} (hd : d ∈ commands env) : strcmp t d.name = 0 ↔ d.name = t := by
  rw [strcmp_eq_zero_iff, cstr_eq_self (fun x hx => ((lineTokens_mem ht).2 x hx).1),
    commandText_cstr _ (commands_name_mem env hd)]
  exact eq_comm

theorem runcmd_unknown (env : Env) (fuel tf : Nat) (k : Kernel) (line t : List Char)
    (ts : List (List Char)) (htok : lineTokens line = t :: ts)
    (h15 : (lineTokens line).length ≤ 15) (hno : ∀ c ∈ commands env, c.name ≠ t) :
    runcmd env fuel line tf k = .ret 0 (cprintf k "Unknown command '%s'\n" [.str t]) := by
  have ht : t ∈ lineTokens line := by rw [htok]; simp
  rw [runcmd, runcmdWith_parsed _ _ _ _ _ h15, htok]
  simp only [List.length_cons, Nat.add_one_ne_zero, if_false]
  have := dispatch_none fuel ((ts.length + 1 : Nat) : Int) (t :: ts) tf k (commands env)
    (fun d hd h0 => hno d hd ((strcmp_token_name env ht hd).1 h0))
  simpa using this

/-- Claim C3. For a line that was tokenized (at most 15 tokens, first token `t`):
if `t` equals the name of some entry of `commands`, then `runcmd` is exactly the call of the
handler of the first entry named `t`, with `argc` the number of tokens and `argv` the whole
token list, and its result is that handler's result; and if `t` is a proper initial segment
of an entry's name, or differs from it only in letter case, then no entry matches: `runcmd`
reports an unknown command and returns 0. -/
theorem runcmd_dispatch_match (env : Env) (fuel tf : Nat) (k : Kernel) (line t : List Char)
    (ts : List (List Char)) (htok : lineTokens line = t :: ts)
    (h15 : (lineTokens line).length ≤ 15) :
    (∀ c ∈ commands env, c.name = t →
      ∃ (pre : List Command) (c1 : Command) (post : List Command),
        commands env = pre ++ c1 :: post ∧ c1.name = t ∧ (∀ d ∈ pre, d.name ≠ t) ∧
        runcmd env fuel line tf k
          = c1.func fuel (((t :: ts).length : Nat) : Int) (t :: ts) tf k) ∧
    (∀ c ∈ commands env, t ≠ c.name →
      (t <+: c.name ∨ t.map Char.toLower = c.name.map Char.toLower) →
      runcmd env fuel line tf k = .ret 0 (cprintf k "Unknown command '%s'\n" [.str t])) := by
  have ht : t ∈ lineTokens line := by rw [htok]; simp
  constructor
  · intro c hc hn
    obtain ⟨pre, c1, post, h1, h2, h3⟩ := exists_first_named t (commands env) ⟨c, hc, hn⟩
    refine ⟨pre, c1, post, h1, h2, h3, ?_⟩
    rw [runcmd, runcmdWith_parsed _ _ _ _ _ h15, htok]
    simp only [List.length_cons, Nat.add_one_ne_zero, if_false]
    have hpre : ∀ d ∈ pre, d ∈ commands env := fun d hd => by rw [h1]; simp [hd]
    have hc1 : c1 ∈ commands env := by rw [h1]; simp
    rw [h1]
    exact dispatch_first fuel _ (t :: ts) tf k c1 post pre
      (fun d hd h0 => h3 d hd ((strcmp_token_name env ht (hpre d hd)).1 (by simpa using h0)))
      ((strcmp_token_name env ht hc1).2 h2)
  · intro c hc hne hor
    apply runcmd_unknown env fuel tf k line t ts htok h15
    intro d hd hdt
    have hcn := commands_name_mem env hc
    have hdn := commands_name_mem env hd
    rcases hor with h | h
    · rw [← hdt] at h hne
      exact hne (commandText_no_proper_initial _ hdn _ hcn h)
    · rw [← hdt] at h hne
      exact hne (commandText_case _ hdn _ hcn h)

/-- Witness of `runcmd_dispatch_match` at the line `" pmsetperm  f0000000 W"`. -/
theorem runcmd_dispatch_match_witness :
    (∀ c ∈ commands sampleEnv, c.name = "pmsetperm".data →
      ∃ (pre : List Command) (c1 : Command) (post : List Command),
        commands sampleEnv = pre ++ c1 :: post ∧ c1.name = "pmsetperm".data ∧
        (∀ d ∈ pre, d.name ≠ "pmsetperm".data) ∧
        runcmd sampleEnv 5 " pmsetperm  f0000000 W".data 0 sampleKernel
          = c1.func 5 ((("pmsetperm".data :: ["f0000000".data, "W".data]).length : Nat) : Int)
              ("pmsetperm".data :: ["f0000000".data, "W".data]) 0 sampleKernel) ∧
    (∀ c ∈ commands sampleEnv, "pmsetperm".data ≠ c.name →
      ("pmsetperm".data <+: c.name
        ∨ "pmsetperm".data.map Char.toLower = c.name.map Char.toLower) →
      runcmd sampleEnv 5 " pmsetperm  f0000000 W".data 0 sampleKernel
        = .ret 0 (cprintf sampleKernel "Unknown command '%s'\n" [.str "pmsetperm".data])) :=
  runcmd_dispatch_match sampleEnv 5 0 sampleKernel " pmsetperm  f0000000 W".data
    "pmsetperm".data ["f0000000".data, "W".data] (by decide) (by decide)

/-- Claim C4, as amended. A line with zero tokens makes `runcmd` return 0 with the kernel
state, console included, unchanged and no handler called; a line with at most 15 tokens
whose first token equals none of the registered names makes `runcmd` return 0 after
the single call `cprintf("Unknown command '%s'\n", argv[0])`, with no handler called. -/
theorem runcmd_no_match (env : Env) (fuel tf : Nat) (k : Kernel) (line : List Char) :
    (lineTokens line = [] → runcmd env fuel line tf k = .ret 0 k) ∧
    (∀ (t : List Char) (ts : List (List Char)), lineTokens line = t :: ts →
      (lineTokens line).length ≤ 15 → (∀ c ∈ commands env, c.name ≠ t) →
      runcmd env fuel line tf k = .ret 0 (cprintf k "Unknown command '%s'\n" [.str t])) := by
  constructor
  · intro h
    rw [runcmd, runcmdWith_parsed _ _ _ _ _ (by simp [h]), h]
    simp
  · intro t ts htok h15 hno
    exact runcmd_unknown env fuel tf k line t ts htok h15 hno

/-- Witness of `runcmd_no_match` at the lines `" \t "` and `"dum 0 10"`. -/
theorem runcmd_no_match_witness :
    runcmd sampleEnv 5 " \t ".data 0 sampleKernel = .ret 0 sampleKernel ∧
    runcmd sampleEnv 5 "dum 0 10".data 0 sampleKernel
      = .ret 0 (cprintf sampleKernel "Unknown command '%s'\n" [.str "dum".data]) :=
  ⟨(runcmd_no_match sampleEnv 5 0 sampleKernel " \t ".data).1 (by decide),
   (runcmd_no_match sampleEnv 5 0 sampleKernel "dum 0 10".data).2 "dum".data
      ["0".data, "10".data] (by decide) (by decide) (by decide)⟩

/-- Counterexample to claim C4 as stated: the first token of this 16-token line equals no
registered name, yet `runcmd` does not print "Unknown command"; it prints
"Too many arguments" (and returns 0). -/
theorem runcmd_unknown_sixteen_tokens :
    lineTokens "nope b c d e f g h i j k l m n o p".data
      = "nope".data :: (lineTokens "b c d e f g h i j k l m n o p".data) ∧
    (∀ c ∈ commands sampleEnv, c.name ≠ "nope".data) ∧
    (runcmd sampleEnv 5 "nope b c d e f g h i j k l m n o p".data 0 sampleKernel).rc = some 0 ∧
    (runcmd sampleEnv 5 "nope b c d e f g h i j k l m n o p".data 0 sampleKernel).state.console
      = [{ fmt := "Too many arguments (max %d)\n", args := [.int 16] }] ∧
    (runcmd sampleEnv 5 "nope b c d e f g h i j k l m n o p".data 0 sampleKernel).state.console
      ≠ [{ fmt := "Unknown command '%s'\n", args := [.str "nope".data] }] := by
  refine ⟨by decide, by decide, ?_, ?_, ?_⟩
  · rfl
  · rfl
  · decide

/-! ## Memory and bit operations -/

theorem read32_lt (m : Nat → Nat) (a : Nat) : read32 m a < 4294967296 := by
  unfold read32
  omega

theorem read32_write32_same (m : Nat → Nat) (a v : Nat) (hv : v < 4294967296) :
    read32 (write32 m a v) a = v := by
  have h01 : a % 4294967296 ≠ (a + 1) % 4294967296 := by omega
  have h02 : a % 4294967296 ≠ (a + 2) % 4294967296 := by omega
  have h03 : a % 4294967296 ≠ (a + 3) % 4294967296 := by omega
  have h12 : (a + 1) % 4294967296 ≠ (a + 2) % 4294967296 := by omega
  have h13 : (a + 1) % 4294967296 ≠ (a + 3) % 4294967296 := by omega
  have h23 : (a + 2) % 4294967296 ≠ (a + 3) % 4294967296 := by omega
  simp only [read32, write32, h01, h02, h03, h12, h13, h23, if_true, if_false]
  omega

theorem write32_other (m : Nat → Nat) (a v x : Nat)
    (h : ∀ j < 4, x ≠ (a + j) % 4294967296) : write32 m a v x = m x := by
  have h0 := h 0 (by omega)
  have h1 := h 1 (by omega)
  have h2 := h 2 (by omega)
  have h3 := h 3 (by omega)
  simp only [Nat.add_zero] at h0
  simp only [write32, h0, h1, h2, h3, if_false]

theorem read32_write32_other (m : Nat → Nat) (a v q : Nat)
    (ha : a % 4 = 0) (hq : q % 4 = 0) (hne : q % 4294967296 ≠ a % 4294967296) :
    read32 (write32 m a v) q = read32 m q := by
  unfold read32
  rw [write32_other m a v _ (by intro j hj; omega), write32_other m a v _ (by intro j hj; omega),
    write32_other m a v _ (by intro j hj; omega), write32_other m a v _ (by intro j hj; omega)]

theorem permBit_cases {c : Char} {perm : Nat} (h : permBit c = some perm) :
    perm = 1 ∨ perm = 2 ∨ perm = 4 ∨ perm = 64 := by
  unfold permBit at h
  split_ifs at h <;> simp [PTE_P, PTE_W, PTE_U, PTE_D] at h <;> omega

theorem testBit_high {e i : Nat} (he : e < 4294967296) (hi : 32 ≤ i) : e.testBit i = false := by
  apply Nat.testBit_eq_false_of_lt
  calc e < 2 ^ 32 := he
    _ ≤ 2 ^ i := Nat.pow_le_pow_right (by decide) hi

theorem testBit_mask32 (i : Nat) : (4294967295 : Nat).testBit i = decide (i < 32) := by
  have : (4294967295 : Nat) = 2 ^ 32 - 1 := by norm_num
  rw [this, Nat.testBit_two_pow_sub_one]

theorem clear_testBit (e perm i : Nat) (he : e < 4294967296) :
    (e &&& (4294967295 ^^^ perm)).testBit i = (e.testBit i && !perm.testBit i) := by
  rw [Nat.testBit_land, Nat.testBit_xor, testBit_mask32]
  by_cases hi : i < 32
  · simp [hi]
  · have hh := testBit_high (i := i) he (by omega)
    simp [hi, hh]

theorem clear_then_set (e perm : Nat) (he : e < 4294967296) :
    (e &&& (4294967295 ^^^ perm)) ||| perm = e ||| perm := by
  apply Nat.eq_of_testBit_eq
  intro i
  rw [Nat.testBit_lor, clear_testBit e perm i he, Nat.testBit_lor]
  cases e.testBit i <;> cases perm.testBit i <;> rfl

theorem clear_le (e perm : Nat) : e &&& (4294967295 ^^^ perm) ≤ e := Nat.and_le_left

theorem set_lt {e perm : Nat} (he : e < 4294967296) (hp : perm < 4294967296) :
    e ||| perm < 4294967296 := by
  have := @Nat.or_lt_two_pow e perm 32 (by simpa using he) (by simpa using hp)
  simpa using this

theorem clear_of_clear (e perm : Nat) (he : e < 4294967296) (h : e &&& perm = 0) :
    e &&& (4294967295 ^^^ perm) = e := by
  apply Nat.eq_of_testBit_eq
  intro i
  rw [clear_testBit e perm i he]
  have hb : (e &&& perm).testBit i = false := by rw [h]; simp
  rw [Nat.testBit_land] at hb
  cases he' : e.testBit i <;> cases hp : perm.testBit i <;> simp_all

theorem clear_clear (e perm : Nat) (he : e < 4294967296) (hp : perm < 4294967296) :
    (e ||| perm) &&& (4294967295 ^^^ perm) = e &&& (4294967295 ^^^ perm) := by
  apply Nat.eq_of_testBit_eq
  intro i
  rw [clear_testBit _ perm i (set_lt he hp), Nat.testBit_lor, clear_testBit e perm i he]
  cases e.testBit i <;> cases perm.testBit i <;> rfl

theorem frame_base_of_bits {e e2 perm : Nat}
    (hp : perm = 1 ∨ perm = 2 ∨ perm = 4 ∨ perm = 64)
    (h : ∀ i, perm.testBit i = false → e2.testBit i = e.testBit i) :
    e2 &&& 4294963200 = e &&& 4294963200 := by
  apply Nat.eq_of_testBit_eq
  intro i
  rw [Nat.testBit_land, Nat.testBit_land]
  by_cases hi : perm.testBit i = false
  · rw [h i hi]
  · have hi' : perm.testBit i = true := by simpa using hi
    have hlt : i < 12 := by
      by_contra hge
      have : perm.testBit i = false := by
        apply Nat.testBit_eq_false_of_lt
        have h12 : (2 : Nat) ^ 12 ≤ 2 ^ i := Nat.pow_le_pow_right (by decide) (by omega)
        have : perm < 2 ^ 12 := by rcases hp with h | h | h | h <;> subst h <;> decide
        omega
      rw [this] at hi'
      exact Bool.noConfusion hi'
    have hf : (4294963200 : Nat).testBit i = false := by
      interval_cases i <;> decide
    rw [hf]
    simp

/-! ## The permission editor -/

theorem kernbase_test_false (va : Nat) : ¬ ((if va = 0 then 1 else 0) > KERNBASE) := by
  unfold KERNBASE
  split <;> omega

theorem argc_three (argc : Int) : (argc > 2 ∧ argc < 4) ↔ argc = 3 := by omega

theorem pm_fail (env : Env) (argc : Int) (argv : List (List Char)) (set : Int) (k : Kernel)
    (h : argc ≠ 3 ∨ permBit (pmCode argv) = none ∨ env.pgdir_walk (pmAddr env argv) = none) :
    mon_pmsetpermisionbit env argc argv set k = (1, k) := by
  unfold mon_pmsetpermisionbit
  by_cases h3 : argc = 3
  · have h3' : argc > 2 ∧ argc < 4 := (argc_three argc).2 h3
    rw [if_neg (not_not_intro h3'), if_neg (kernbase_test_false _)]
    rcases h with h | h | h
    · exact absurd h3 h
    · have h' : permBit ((argv.getD 2 []).headD NUL) = none := h
      rw [h']
    · have h' : env.pgdir_walk (u32 (env.strtol (argv.getD 1 []) 16)) = none := h
      cases hp : permBit ((argv.getD 2 []).headD NUL) with
      | none => rfl
      | some perm => simp only [h']
  · have h3' : ¬ (argc > 2 ∧ argc < 4) := fun x => h3 ((argc_three argc).1 x)
    rw [if_pos h3']

theorem pm_ok (env : Env) (argv : List (List Char)) (set : Int) (k : Kernel) (perm pte : Nat)
    (hp : permBit (pmCode argv) = some perm) (hw : env.pgdir_walk (pmAddr env argv) = some pte) :
    (mon_pmsetpermisionbit env 3 argv set k).1 = 0 ∧
    (mon_pmsetpermisionbit env 3 argv set k).2.console = k.console ∧
    (mon_pmsetpermisionbit env 3 argv set k).2.mem =
      (if set ≠ 0 then
        write32 (write32 k.mem pte (read32 k.mem pte &&& (4294967295 ^^^ perm))) pte
          (read32 (write32 k.mem pte (read32 k.mem pte &&& (4294967295 ^^^ perm))) pte ||| perm)
       else write32 k.mem pte (read32 k.mem pte &&& (4294967295 ^^^ perm))) := by
  have hp' : permBit ((argv.getD 2 []).headD NUL) = some perm := hp
  have hw' : env.pgdir_walk (u32 (env.strtol (argv.getD 1 []) 16)) = some pte := hw
  have h3' : (3 : Int) > 2 ∧ (3 : Int) < 4 := by omega
  unfold mon_pmsetpermisionbit
  rw [if_neg (not_not_intro h3'), if_neg (kernbase_test_false _)]
  simp only [hp', hw']
  by_cases hs : set = 0
  · simp [hs]
  · simp [hs]

theorem pm_success (env : Env) (argc : Int) (argv : List (List Char)) (set : Int) (k : Kernel)
    (h : (mon_pmsetpermisionbit env argc argv set k).1 = 0) :
    argc = 3 ∧ ∃ perm pte, permBit (pmCode argv) = some perm ∧
      env.pgdir_walk (pmAddr env argv) = some pte := by
  by_cases h3 : argc = 3
  · refine ⟨h3, ?_⟩
    cases hp : permBit (pmCode argv) with
    | none => rw [pm_fail env argc argv set k (Or.inr (Or.inl hp))] at h; simp at h
    | some perm =>
      cases hw : env.pgdir_walk (pmAddr env argv) with
      | none => rw [pm_fail env argc argv set k (Or.inr (Or.inr hw))] at h; simp at h
      | some pte => exact ⟨perm, pte, rfl, rfl⟩
  · rw [pm_fail env argc argv set k (Or.inl h3)] at h; simp at h

theorem pm_entry (env : Env) (argv : List (List Char)) (set : Int) (k : Kernel) (perm pte : Nat)
    (hp : permBit (pmCode argv) = some perm) (hw : env.pgdir_walk (pmAddr env argv) = some pte) :
    read32 (mon_pmsetpermisionbit env 3 argv set k).2.mem pte =
      if set ≠ 0 then read32 k.mem pte ||| perm
      else read32 k.mem pte &&& (4294967295 ^^^ perm) := by
  have he := read32_lt k.mem pte
  have hc : read32 k.mem pte &&& (4294967295 ^^^ perm) < 4294967296 :=
    lt_of_le_of_lt (clear_le _ _) he
  have hperm : perm < 4294967296 := by
    rcases permBit_cases hp with h | h | h | h <;> omega
  rw [(pm_ok env argv set k perm pte hp hw).2.2]
  by_cases hs : set = 0
  · simp only [hs, ne_eq, not_true_eq_false, if_false]
    exact read32_write32_same _ _ _ hc
  · simp only [hs, ne_eq, not_false_eq_true, if_true]
    rw [read32_write32_same _ _ _ hc, read32_write32_same _ _ _ (set_lt hc hperm),
      clear_then_set _ _ he]

theorem clear_ne_of_set (e perm : Nat) (he : e < 4294967296) (h : e &&& perm ≠ 0) :
    e &&& (4294967295 ^^^ perm) ≠ e := by
  intro heq
  apply h
  apply Nat.eq_of_testBit_eq
  intro i
  have hi : (e &&& (4294967295 ^^^ perm)).testBit i = e.testBit i := by rw [heq]
  rw [clear_testBit e perm i he] at hi
  rw [Nat.testBit_land, Nat.zero_testBit]
  cases he' : e.testBit i <;> cases hp' : perm.testBit i <;> simp_all

/-- Claim C5, as amended. For an address whose entry the translator returns and a code in
P, W, U, D with mask `perm`: the set operation and then the clear operation both succeed,
and leave the entry equal to its old value with the bit of `perm` cleared. The entry is
restored bit for bit when that bit was clear beforehand, and is not restored when it was
set beforehand. -/
theorem pm_set_then_clear (env : Env) (argv : List (List Char)) (k : Kernel) (perm pte : Nat)
    (hp : permBit (pmCode argv) = some perm)
    (hw : env.pgdir_walk (pmAddr env argv) = some pte) :
    (mon_pmsetpermisionbit env 3 argv 1 k).1 = 0 ∧
    (mon_pmsetpermisionbit env 3 argv 0 (mon_pmsetpermisionbit env 3 argv 1 k).2).1 = 0 ∧
    read32 (mon_pmsetpermisionbit env 3 argv 0 (mon_pmsetpermisionbit env 3 argv 1 k).2).2.mem pte
      = read32 k.mem pte &&& (4294967295 ^^^ perm) ∧
    (read32 k.mem pte &&& perm = 0 →
      read32 (mon_pmsetpermisionbit env 3 argv 0 (mon_pmsetpermisionbit env 3 argv 1 k).2).2.mem
        pte = read32 k.mem pte) ∧
    (read32 k.mem pte &&& perm ≠ 0 →
      read32 (mon_pmsetpermisionbit env 3 argv 0 (mon_pmsetpermisionbit env 3 argv 1 k).2).2.mem
        pte ≠ read32 k.mem pte) := by
  have he := read32_lt k.mem pte
  have hperm : perm < 4294967296 := by
    rcases permBit_cases hp with h | h | h | h <;> omega
  have h1 := pm_entry env argv 1 k perm pte hp hw
  have h2 := pm_entry env argv 0 (mon_pmsetpermisionbit env 3 argv 1 k).2 perm pte hp hw
  simp only [ne_eq, one_ne_zero, not_false_eq_true, if_true] at h1
  simp only [ne_eq, not_true_eq_false, if_false, h1, clear_clear _ _ he hperm] at h2
  refine ⟨(pm_ok env argv 1 k perm pte hp hw).1, (pm_ok env argv 0 _ perm pte hp hw).1, h2, ?_, ?_⟩
  · intro h0
    rw [h2, clear_of_clear _ _ he h0]
  · intro h0
    rw [h2]
    exact clear_ne_of_set _ _ he h0

/-- Witness of `pm_set_then_clear`: `D` on the entry of `0xf0000000`, whose dirty bit is
clear. -/
theorem pm_set_then_clear_witness :
    (mon_pmsetpermisionbit sampleEnv 3 ["pmsetperm".data, "f0000000".data, "D".data] 1
      sampleKernel).1 = 0 ∧
    (mon_pmsetpermisionbit sampleEnv 3 ["pmsetperm".data, "f0000000".data, "D".data] 0
      (mon_pmsetpermisionbit sampleEnv 3 ["pmsetperm".data, "f0000000".data, "D".data] 1
        sampleKernel).2).1 = 0 ∧
    read32 (mon_pmsetpermisionbit sampleEnv 3 ["pmsetperm".data, "f0000000".data, "D".data] 0
      (mon_pmsetpermisionbit sampleEnv 3 ["pmsetperm".data, "f0000000".data, "D".data] 1
        sampleKernel).2).2.mem 12288
      = read32 sampleKernel.mem 12288 &&& (4294967295 ^^^ 64) ∧
    (read32 sampleKernel.mem 12288 &&& 64 = 0 →
      read32 (mon_pmsetpermisionbit sampleEnv 3 ["pmsetperm".data, "f0000000".data, "D".data] 0
        (mon_pmsetpermisionbit sampleEnv 3 ["pmsetperm".data, "f0000000".data, "D".data] 1
          sampleKernel).2).2.mem 12288 = read32 sampleKernel.mem 12288) ∧
    (read32 sampleKernel.mem 12288 &&& 64 ≠ 0 →
      read32 (mon_pmsetpermisionbit sampleEnv 3 ["pmsetperm".data, "f0000000".data, "D".data] 0
        (mon_pmsetpermisionbit sampleEnv 3 ["pmsetperm".data, "f0000000".data, "D".data] 1
          sampleKernel).2).2.mem 12288 ≠ read32 sampleKernel.mem 12288) :=
  pm_set_then_clear sampleEnv ["pmsetperm".data, "f0000000".data, "D".data] sampleKernel
    64 12288 (by decide) (by decide)

/-- Counterexample to claim C5 as stated: the entry of `0xf0000000` is `0x3` (present and
writable); setting and then clearing `P` both succeed and leave it `0x2`, not `0x3`. -/
theorem pm_set_then_clear_not_restored :
    permBit (pmCode ["pmsetperm".data, "f0000000".data, "P".data]) = some PTE_P ∧
    sampleEnv.pgdir_walk (pmAddr sampleEnv ["pmsetperm".data, "f0000000".data, "P".data])
      = some 12288 ∧
    read32 sampleKernel.mem 12288 = 3 ∧
    (mon_pmsetpermisionbit sampleEnv 3 ["pmsetperm".data, "f0000000".data, "P".data] 1
      sampleKernel).1 = 0 ∧
    (mon_pmsetpermisionbit sampleEnv 3 ["pmsetperm".data, "f0000000".data, "P".data] 0
      (mon_pmsetpermisionbit sampleEnv 3 ["pmsetperm".data, "f0000000".data, "P".data] 1
        sampleKernel).2).1 = 0 ∧
    read32 (mon_pmsetpermisionbit sampleEnv 3 ["pmsetperm".data, "f0000000".data, "P".data] 0
      (mon_pmsetpermisionbit sampleEnv 3 ["pmsetperm".data, "f0000000".data, "P".data] 1
        sampleKernel).2).2.mem 12288 = 2 := by
  refine ⟨by decide, by decide, by decide, by decide, by decide, by decide⟩

theorem permBit_table {c : Char} {perm : Nat} (h : permBit c = some perm) :
    (c = 'P' ∧ perm = PTE_P) ∨ (c = 'W' ∧ perm = PTE_W) ∨
      (c = 'U' ∧ perm = PTE_U) ∨ (c = 'D' ∧ perm = PTE_D) := by
  unfold permBit at h
  by_cases hP : c = 'P'
  · rw [if_pos hP] at h
    exact Or.inl ⟨hP, (Option.some.inj h).symm⟩
  · rw [if_neg hP] at h
    by_cases hW : c = 'W'
    · rw [if_pos hW] at h
      exact Or.inr (Or.inl ⟨hW, (Option.some.inj h).symm⟩)
    · rw [if_neg hW] at h
      by_cases hU : c = 'U'
      · rw [if_pos hU] at h
        exact Or.inr (Or.inr (Or.inl ⟨hU, (Option.some.inj h).symm⟩))
      · rw [if_neg hU] at h
        by_cases hD : c = 'D'
        · rw [if_pos hD] at h
          exact Or.inr (Or.inr (Or.inr ⟨hD, (Option.some.inj h).symm⟩))
        · rw [if_neg hD] at h
          exact Option.noConfusion h

theorem pm_effect_core (env : Env) (argv : List (List Char)) (set : Int) (k : Kernel)
    (perm pte : Nat) (hp : permBit (pmCode argv) = some perm)
    (hw : env.pgdir_walk (pmAddr env argv) = some pte) :
    (set ≠ 0 → read32 (mon_pmsetpermisionbit env 3 argv set k).2.mem pte
      = read32 k.mem pte ||| perm) ∧
    (set = 0 → read32 (mon_pmsetpermisionbit env 3 argv set k).2.mem pte
      = read32 k.mem pte &&& (4294967295 ^^^ perm)) ∧
    (∀ i, perm.testBit i = false →
      (read32 (mon_pmsetpermisionbit env 3 argv set k).2.mem pte).testBit i
        = (read32 k.mem pte).testBit i) ∧
    read32 (mon_pmsetpermisionbit env 3 argv set k).2.mem pte &&& 4294963200
      = read32 k.mem pte &&& 4294963200 ∧
    (∀ x, (∀ j < 4, x ≠ (pte + j) % 4294967296) →
      (mon_pmsetpermisionbit env 3 argv set k).2.mem x = k.mem x) ∧
    (∀ q, pte % 4 = 0 → q % 4 = 0 → q % 4294967296 ≠ pte % 4294967296 →
      read32 (mon_pmsetpermisionbit env 3 argv set k).2.mem q = read32 k.mem q) ∧
    (mon_pmsetpermisionbit env 3 argv set k).2.console = k.console ∧
    (set = 0 → read32 k.mem pte &&& perm = 0 →
      read32 (mon_pmsetpermisionbit env 3 argv set k).2.mem pte = read32 k.mem pte) := by
  have he := read32_lt k.mem pte
  have hent := pm_entry env argv set k perm pte hp hw
  have hok := pm_ok env argv set k perm pte hp hw
  have hset : set ≠ 0 → read32 (mon_pmsetpermisionbit env 3 argv set k).2.mem pte
      = read32 k.mem pte ||| perm := by
    intro hs; rw [hent, if_pos hs]
  have hclr : set = 0 → read32 (mon_pmsetpermisionbit env 3 argv set k).2.mem pte
      = read32 k.mem pte &&& (4294967295 ^^^ perm) := by
    intro hs; rw [hent, if_neg (not_not_intro hs)]
  have hbits : ∀ i, perm.testBit i = false →
      (read32 (mon_pmsetpermisionbit env 3 argv set k).2.mem pte).testBit i
        = (read32 k.mem pte).testBit i := by
    intro i hi
    by_cases hs : set = 0
    · rw [hclr hs, clear_testBit _ _ _ he, hi]; simp
    · rw [hset hs, Nat.testBit_lor, hi]; simp
  have hbytes : ∀ x, (∀ j < 4, x ≠ (pte + j) % 4294967296) →
      (mon_pmsetpermisionbit env 3 argv set k).2.mem x = k.mem x := by
    intro x hx
    rw [hok.2.2]
    by_cases hs : set = 0
    · rw [if_neg (not_not_intro hs), write32_other _ _ _ _ hx]
    · rw [if_pos hs, write32_other _ _ _ _ hx, write32_other _ _ _ _ hx]
  refine ⟨hset, hclr, hbits, frame_base_of_bits (permBit_cases hp) hbits, hbytes, ?_,
    hok.2.1, ?_⟩
  · intro q hpa hq hne
    unfold read32
    rw [hbytes _ (by intro j hj; omega), hbytes _ (by intro j hj; omega),
      hbytes _ (by intro j hj; omega), hbytes _ (by intro j hj; omega)]
  · intro hs h0
    rw [hclr hs, clear_of_clear _ _ he h0]

theorem pmsetperm_state (env : Env) (fuel : Nat) (argc : Int) (argv : List (List Char))
    (tf : Nat) (k : Kernel) :
    (mon_pmsetperm env fuel argc argv tf k).rc = some 0 ∧
    (mon_pmsetperm env fuel argc argv tf k).state.mem
      = (mon_pmsetpermisionbit env argc argv 1 k).2.mem := by
  unfold mon_pmsetperm
  generalize mon_pmsetpermisionbit env argc argv 1 k = r
  obtain ⟨r, k1⟩ := r
  by_cases hr : r ≠ 0 <;> simp [hr, Outcome.rc, Outcome.state, cprintf]

theorem pmclearperm_state (env : Env) (fuel : Nat) (argc : Int) (argv : List (List Char))
    (tf : Nat) (k : Kernel) :
    (mon_pmclearperm env fuel argc argv tf k).rc = some 0 ∧
    (mon_pmclearperm env fuel argc argv tf k).state.mem
      = (mon_pmsetpermisionbit env argc argv 0 k).2.mem := by
  unfold mon_pmclearperm
  generalize mon_pmsetpermisionbit env argc argv 0 k = r
  obtain ⟨r, k1⟩ := r
  by_cases hr : r ≠ 0 <;> simp [hr, Outcome.rc, Outcome.state, cprintf]

/-- Claim C6. When `mon_pmsetpermisionbit` returns 0 for the arguments `argc`, `argv`, the
translator gave an entry `pte` for the address and the code character selects the mask
`perm` by the table P = `PTE_P`, W = `PTE_W`, U = `PTE_U`, D = `PTE_D`. With these arguments
the handler `mon_pmsetperm` (which runs the edit with `set = 1`) returns 0 and leaves the
entry equal to `old | perm`, and the handler `mon_pmclearperm` (which runs it with
`set = 0`) returns 0 and leaves the entry equal to `old & ~perm`; in both cases every bit
of the entry outside `perm` keeps its value, so does the frame base `entry & 0xfffff000`,
and every byte of memory outside the four bytes of the entry, hence every other (4-byte
aligned) entry, is unchanged; `mon_pmclearperm` on an entry whose bit is already clear
leaves the entry as it was. The same holds of `mon_pmsetpermisionbit` itself for every
value of `set` (non-zero sets, zero clears), which prints nothing. -/
theorem pm_edit_effect (env : Env) (argc : Int) (argv : List (List Char)) (set : Int)
    (k : Kernel) (h : (mon_pmsetpermisionbit env argc argv set k).1 = 0) :
    ∃ (pte perm : Nat),
      env.pgdir_walk (pmAddr env argv) = some pte ∧
      permBit (pmCode argv) = some perm ∧
      ((pmCode argv = 'P' ∧ perm = PTE_P) ∨ (pmCode argv = 'W' ∧ perm = PTE_W) ∨
        (pmCode argv = 'U' ∧ perm = PTE_U) ∨ (pmCode argv = 'D' ∧ perm = PTE_D)) ∧
      (set ≠ 0 → read32 (mon_pmsetpermisionbit env argc argv set k).2.mem pte
        = read32 k.mem pte ||| perm) ∧
      (set = 0 → read32 (mon_pmsetpermisionbit env argc argv set k).2.mem pte
        = read32 k.mem pte &&& (4294967295 ^^^ perm)) ∧
      (∀ i, perm.testBit i = false →
        (read32 (mon_pmsetpermisionbit env argc argv set k).2.mem pte).testBit i
          = (read32 k.mem pte).testBit i) ∧
      read32 (mon_pmsetpermisionbit env argc argv set k).2.mem pte &&& 4294963200
        = read32 k.mem pte &&& 4294963200 ∧
      (∀ x, (∀ j < 4, x ≠ (pte + j) % 4294967296) →
        (mon_pmsetpermisionbit env argc argv set k).2.mem x = k.mem x) ∧
      (∀ q, pte % 4 = 0 → q % 4 = 0 → q % 4294967296 ≠ pte % 4294967296 →
        read32 (mon_pmsetpermisionbit env argc argv set k).2.mem q = read32 k.mem q) ∧
      (mon_pmsetpermisionbit env argc argv set k).2.console = k.console ∧
      (set = 0 → read32 k.mem pte &&& perm = 0 →
        read32 (mon_pmsetpermisionbit env argc argv set k).2.mem pte = read32 k.mem pte) ∧
      (∀ fuel tf : Nat,
        (mon_pmsetperm env fuel argc argv tf k).rc = some 0 ∧
        read32 (mon_pmsetperm env fuel argc argv tf k).state.mem pte
          = read32 k.mem pte ||| perm ∧
        (∀ i, perm.testBit i = false →
          (read32 (mon_pmsetperm env fuel argc argv tf k).state.mem pte).testBit i
            = (read32 k.mem pte).testBit i) ∧
        read32 (mon_pmsetperm env fuel argc argv tf k).state.mem pte &&& 4294963200
          = read32 k.mem pte &&& 4294963200 ∧
        (∀ x, (∀ j < 4, x ≠ (pte + j) % 4294967296) →
          (mon_pmsetperm env fuel argc argv tf k).state.mem x = k.mem x) ∧
        (∀ q, pte % 4 = 0 → q % 4 = 0 → q % 4294967296 ≠ pte % 4294967296 →
          read32 (mon_pmsetperm env fuel argc argv tf k).state.mem q = read32 k.mem q)) ∧
      (∀ fuel tf : Nat,
        (mon_pmclearperm env fuel argc argv tf k).rc = some 0 ∧
        read32 (mon_pmclearperm env fuel argc argv tf k).state.mem pte
          = read32 k.mem pte &&& (4294967295 ^^^ perm) ∧
        (∀ i, perm.testBit i = false →
          (read32 (mon_pmclearperm env fuel argc argv tf k).state.mem pte).testBit i
            = (read32 k.mem pte).testBit i) ∧
        read32 (mon_pmclearperm env fuel argc argv tf k).state.mem pte &&& 4294963200
          = read32 k.mem pte &&& 4294963200 ∧
        (∀ x, (∀ j < 4, x ≠ (pte + j) % 4294967296) →
          (mon_pmclearperm env fuel argc argv tf k).state.mem x = k.mem x) ∧
        (∀ q, pte % 4 = 0 → q % 4 = 0 → q % 4294967296 ≠ pte % 4294967296 →
          read32 (mon_pmclearperm env fuel argc argv tf k).state.mem q = read32 k.mem q) ∧
        (read32 k.mem pte &&& perm = 0 →
          read32 (mon_pmclearperm env fuel argc argv tf k).state.mem pte = read32 k.mem pte)) := by
  obtain ⟨h3, perm, pte, hp, hw⟩ := pm_success env argc argv set k h
  subst h3
  obtain ⟨c1, c2, c3, c4, c5, c6, c7, c8⟩ := pm_effect_core env argv set k perm pte hp hw
  obtain ⟨s1, _, s3, s4, s5, s6, _, _⟩ := pm_effect_core env argv 1 k perm pte hp hw
  obtain ⟨_, z2, z3, z4, z5, z6, _, z8⟩ := pm_effect_core env argv 0 k perm pte hp hw
  refine ⟨pte, perm, hw, hp, permBit_table hp, c1, c2, c3, c4, c5, c6, c7, c8, ?_, ?_⟩
  · intro fuel tf
    obtain ⟨hrc, hmem⟩ := pmsetperm_state env fuel 3 argv tf k
    rw [hmem]
    exact ⟨hrc, s1 (by decide), s3, s4, s5, s6⟩
  · intro fuel tf
    obtain ⟨hrc, hmem⟩ := pmclearperm_state env fuel 3 argv tf k
    rw [hmem]
    exact ⟨hrc, z2 rfl, z3, z4, z5, z6, z8 rfl⟩

/-- Witness of `pm_edit_effect`: `pmsetperm f0000000 U` on the sample machine. -/
theorem pm_edit_effect_witness :
    ∃ (pte perm : Nat),
      sampleEnv.pgdir_walk (pmAddr sampleEnv ["pmsetperm".data, "f0000000".data, "U".data]) = some pte ∧
      permBit (pmCode ["pmsetperm".data, "f0000000".data, "U".data]) = some perm ∧
      ((pmCode ["pmsetperm".data, "f0000000".data, "U".data] = 'P' ∧ perm = PTE_P) ∨ (pmCode ["pmsetperm".data, "f0000000".data, "U".data] = 'W' ∧ perm = PTE_W) ∨
        (pmCode ["pmsetperm".data, "f0000000".data, "U".data] = 'U' ∧ perm = PTE_U) ∨ (pmCode ["pmsetperm".data, "f0000000".data, "U".data] = 'D' ∧ perm = PTE_D)) ∧
      ((1 : Int) ≠ 0 → read32 (mon_pmsetpermisionbit sampleEnv 3 ["pmsetperm".data, "f0000000".data, "U".data] (1 : Int) sampleKernel).2.mem pte
        = read32 sampleKernel.mem pte ||| perm) ∧
      ((1 : Int) = 0 → read32 (mon_pmsetpermisionbit sampleEnv 3 ["pmsetperm".data, "f0000000".data, "U".data] (1 : Int) sampleKernel).2.mem pte
        = read32 sampleKernel.mem pte &&& (4294967295 ^^^ perm)) ∧
      (∀ i, perm.testBit i = false →
        (read32 (mon_pmsetpermisionbit sampleEnv 3 ["pmsetperm".data, "f0000000".data, "U".data] (1 : Int) sampleKernel).2.mem pte).testBit i
          = (read32 sampleKernel.mem pte).testBit i) ∧
      read32 (mon_pmsetpermisionbit sampleEnv 3 ["pmsetperm".data, "f0000000".data, "U".data] (1 : Int) sampleKernel).2.mem pte &&& 4294963200
        = read32 sampleKernel.mem pte &&& 4294963200 ∧
      (∀ x, (∀ j < 4, x ≠ (pte + j) % 4294967296) →
        (mon_pmsetpermisionbit sampleEnv 3 ["pmsetperm".data, "f0000000".data, "U".data] (1 : Int) sampleKernel).2.mem x = sampleKernel.mem x) ∧
      (∀ q, pte % 4 = 0 → q % 4 = 0 → q % 4294967296 ≠ pte % 4294967296 →
        read32 (mon_pmsetpermisionbit sampleEnv 3 ["pmsetperm".data, "f0000000".data, "U".data] (1 : Int) sampleKernel).2.mem q = read32 sampleKernel.mem q) ∧
      (mon_pmsetpermisionbit sampleEnv 3 ["pmsetperm".data, "f0000000".data, "U".data] (1 : Int) sampleKernel).2.console = sampleKernel.console ∧
      ((1 : Int) = 0 → read32 sampleKernel.mem pte &&& perm = 0 →
        read32 (mon_pmsetpermisionbit sampleEnv 3 ["pmsetperm".data, "f0000000".data, "U".data] (1 : Int) sampleKernel).2.mem pte = read32 sampleKernel.mem pte) ∧
      (∀ fuel tf : Nat,
        (mon_pmsetperm sampleEnv fuel 3 ["pmsetperm".data, "f0000000".data, "U".data] tf sampleKernel).rc = some 0 ∧
        read32 (mon_pmsetperm sampleEnv fuel 3 ["pmsetperm".data, "f0000000".data, "U".data] tf sampleKernel).state.mem pte
          = read32 sampleKernel.mem pte ||| perm ∧
        (∀ i, perm.testBit i = false →
          (read32 (mon_pmsetperm sampleEnv fuel 3 ["pmsetperm".data, "f0000000".data, "U".data] tf sampleKernel).state.mem pte).testBit i
            = (read32 sampleKernel.mem pte).testBit i) ∧
        read32 (mon_pmsetperm sampleEnv fuel 3 ["pmsetperm".data, "f0000000".data, "U".data] tf sampleKernel).state.mem pte &&& 4294963200
          = read32 sampleKernel.mem pte &&& 4294963200 ∧
        (∀ x, (∀ j < 4, x ≠ (pte + j) % 4294967296) →
          (mon_pmsetperm sampleEnv fuel 3 ["pmsetperm".data, "f0000000".data, "U".data] tf sampleKernel).state.mem x = sampleKernel.mem x) ∧
        (∀ q, pte % 4 = 0 → q % 4 = 0 → q % 4294967296 ≠ pte % 4294967296 →
          read32 (mon_pmsetperm sampleEnv fuel 3 ["pmsetperm".data, "f0000000".data, "U".data] tf sampleKernel).state.mem q = read32 sampleKernel.mem q)) ∧
      (∀ fuel tf : Nat,
        (mon_pmclearperm sampleEnv fuel 3 ["pmsetperm".data, "f0000000".data, "U".data] tf sampleKernel).rc = some 0 ∧
        read32 (mon_pmclearperm sampleEnv fuel 3 ["pmsetperm".data, "f0000000".data, "U".data] tf sampleKernel).state.mem pte
          = read32 sampleKernel.mem pte &&& (4294967295 ^^^ perm) ∧
        (∀ i, perm.testBit i = false →
          (read32 (mon_pmclearperm sampleEnv fuel 3 ["pmsetperm".data, "f0000000".data, "U".data] tf sampleKernel).state.mem pte).testBit i
            = (read32 sampleKernel.mem pte).testBit i) ∧
        read32 (mon_pmclearperm sampleEnv fuel 3 ["pmsetperm".data, "f0000000".data, "U".data] tf sampleKernel).state.mem pte &&& 4294963200
          = read32 sampleKernel.mem pte &&& 4294963200 ∧
        (∀ x, (∀ j < 4, x ≠ (pte + j) % 4294967296) →
          (mon_pmclearperm sampleEnv fuel 3 ["pmsetperm".data, "f0000000".data, "U".data] tf sampleKernel).state.mem x = sampleKernel.mem x) ∧
        (∀ q, pte % 4 = 0 → q % 4 = 0 → q % 4294967296 ≠ pte % 4294967296 →
          read32 (mon_pmclearperm sampleEnv fuel 3 ["pmsetperm".data, "f0000000".data, "U".data] tf sampleKernel).state.mem q = read32 sampleKernel.mem q) ∧
        (read32 sampleKernel.mem pte &&& perm = 0 →
          read32 (mon_pmclearperm sampleEnv fuel 3 ["pmsetperm".data, "f0000000".data, "U".data] tf sampleKernel).state.mem pte = read32 sampleKernel.mem pte)) :=
  pm_edit_effect sampleEnv 3 ["pmsetperm".data, "f0000000".data, "U".data] 1 sampleKernel
    (by decide)

/-- Claim C7, evaluated at a failing input. The address `0x1000` is below `KERNBASE` and its
page is mapped; `pmclearperm 1000 P` is not rejected: `mon_pmsetpermisionbit` returns 0 and
the entry of the page changes from `0x5007` to `0x5006`. -/
theorem pm_user_address_accepted :
    pmAddr sampleEnv ["pmclearperm".data, "1000".data, "P".data] = 4096 ∧
    4096 < KERNBASE ∧
    sampleEnv.pgdir_walk 4096 = some 12292 ∧
    read32 sampleKernel.mem 12292 = 20487 ∧
    (mon_pmsetpermisionbit sampleEnv 3 ["pmclearperm".data, "1000".data, "P".data] 0
      sampleKernel).1 = 0 ∧
    read32 (mon_pmsetpermisionbit sampleEnv 3 ["pmclearperm".data, "1000".data, "P".data] 0
      sampleKernel).2.mem 12292 = 20486 := by
  refine ⟨by decide, by decide, by decide, by decide, by decide, by decide⟩

/-- The address test of `mon_pmsetpermisionbit` rejects nothing: whatever the address,
three arguments with a valid code and a mapped page make it return 0. -/
theorem pm_address_never_rejected (env : Env) (argv : List (List Char)) (set : Int)
    (k : Kernel) (perm pte : Nat) (hp : permBit (pmCode argv) = some perm)
    (hw : env.pgdir_walk (pmAddr env argv) = some pte) :
    (mon_pmsetpermisionbit env 3 argv set k).1 = 0 :=
  (pm_ok env argv set k perm pte hp hw).1

theorem permBit_none {c : Char} (h : c ≠ 'P' ∧ c ≠ 'W' ∧ c ≠ 'U' ∧ c ≠ 'D') :
    permBit c = none := by
  unfold permBit
  simp [h.1, h.2.1, h.2.2.1, h.2.2.2]

/-- Claim C8. `mon_pmsetpermisionbit` returns 1 and leaves the whole kernel state, so every
page-table entry, unchanged whenever `argc` is not 3, or the permission argument does not
start with one of P, W, U, D, or the translator returns no entry for the address. -/
theorem pm_failure_atomic (env : Env) (argc : Int) (argv : List (List Char)) (set : Int)
    (k : Kernel)
    (h : argc ≠ 3 ∨
      (pmCode argv ≠ 'P' ∧ pmCode argv ≠ 'W' ∧ pmCode argv ≠ 'U' ∧ pmCode argv ≠ 'D') ∨
      env.pgdir_walk (pmAddr env argv) = none) :
    mon_pmsetpermisionbit env argc argv set k = (1, k) ∧
    (mon_pmsetpermisionbit env argc argv set k).2.mem = k.mem := by
  have h' : argc ≠ 3 ∨ permBit (pmCode argv) = none ∨
      env.pgdir_walk (pmAddr env argv) = none := by
    rcases h with h | h | h
    · exact Or.inl h
    · exact Or.inr (Or.inl (permBit_none h))
    · exact Or.inr (Or.inr h)
  rw [pm_fail env argc argv set k h']
  exact ⟨rfl, rfl⟩

/-- Witness of `pm_failure_atomic`: the page of `0x5000` has no entry on the sample machine. -/
theorem pm_failure_atomic_witness :
    mon_pmsetpermisionbit sampleEnv 3 ["pmsetperm".data, "5000".data, "W".data] 1 sampleKernel
      = (1, sampleKernel) ∧
    (mon_pmsetpermisionbit sampleEnv 3 ["pmsetperm".data, "5000".data, "W".data] 1
      sampleKernel).2.mem = sampleKernel.mem :=
  pm_failure_atomic sampleEnv 3 ["pmsetperm".data, "5000".data, "W".data] 1 sampleKernel
    (Or.inr (Or.inr (by decide)))

/-! ## Argument validation of `showmappings` and `dump` -/

theorem i32_zero : i32 0 = 0 := by decide

theorem showmappingsLoop_empty (env : Env) (la fuel : Nat) (k : Kernel) :
    showmappingsLoop env la 0 (fuel + 1) 0 k = .ret 0 (cprintf k "\n" []) := by
  rw [showmappingsLoop, if_neg (lt_irrefl 0)]

theorem dumpDirectLoop_empty (l fuel : Nat) (k : Kernel) :
    dumpDirectLoop l 0 (fuel + 1) 0 k = .ret 0 k := by
  rw [dumpDirectLoop, if_neg (lt_irrefl 0)]

theorem dumpPagedLoop_empty (env : Env) (l fuel : Nat) (k : Kernel) :
    dumpPagedLoop env l 0 (fuel + 1) 0 k = .ret 0 (cprintf k "\n" []) := by
  rw [dumpPagedLoop, if_neg (lt_irrefl 0)]

/-- Claim C9. If `argc` is not 3, or the parsed low address is above the parsed high
address (as unsigned 32-bit values), then `mon_showmappings` and `mon_memorydump` return 1
after printing their usage text and nothing else; the result holds for every translator
and every memory content, and memory is unchanged. With `argc = 3` and low equal to high
both return 0: `showmappings` prints its two header lines and a newline but no row, `dump`
prints no word. -/
theorem range_validation (env : Env) (fuel : Nat) (argc : Int) (argv : List (List Char))
    (tf : Nat) (k : Kernel) :
    ((argc ≠ 3 ∨ u32 (env.strtol (argv.getD 1 []) 16) > u32 (env.strtol (argv.getD 2 []) 16)) →
      mon_showmappings env fuel argc argv tf k = .ret 1 (showmappingsUsage k) ∧
      mon_memorydump env fuel argc argv tf k = .ret 1 (dumpUsage k) ∧
      (showmappingsUsage k).mem = k.mem ∧ (dumpUsage k).mem = k.mem ∧
      (showmappingsUsage k).console = k.console ++
        [{ fmt := "\nWrong arguments", args := [] },
         { fmt := "\nUsage :\n    showmappings [hex start vitual adress] [hex end virtual adress]\n",
           args := [] }] ∧
      (dumpUsage k).console = k.console ++
        [{ fmt := "\nWrong arguments", args := [] },
         { fmt := "\nUsage :\n    dump [hex start adress] [hex end adress]\n", args := [] }]) ∧
    (argc = 3 →
      u32 (env.strtol (argv.getD 1 []) 16) = u32 (env.strtol (argv.getD 2 []) 16) →
      mon_showmappings env (fuel + 1) argc argv tf k =
        .ret 0 (cprintf (cprintf (cprintf k
          "Virtual/Physical Address|   Permission bits     |" [])
          "\n    VA     |    PA      |  P |  R/W |  U/S |  D |" []) "\n" []) ∧
      mon_memorydump env (fuel + 1) argc argv tf k =
        .ret 0 (if u32 (env.strtol (argv.getD 1 []) 16) ≥ KERNBASE then k
          else cprintf k "\n" [])) := by
  constructor
  · intro h
    refine ⟨?_, ?_, rfl, rfl, ?_, ?_⟩
    · unfold mon_showmappings
      by_cases h3 : argc = 3
      · have hgt : u32 (env.strtol (argv.getD 1 []) 16) > u32 (env.strtol (argv.getD 2 []) 16) := by
          rcases h with h | h
          · exact absurd h3 h
          · exact h
        rw [if_neg (not_not_intro ((argc_three argc).2 h3))]
        simp only [hgt, if_true]
      · rw [if_pos (fun x => h3 ((argc_three argc).1 x))]
    · unfold mon_memorydump
      by_cases h3 : argc = 3
      · have hgt : u32 (env.strtol (argv.getD 1 []) 16) > u32 (env.strtol (argv.getD 2 []) 16) := by
          rcases h with h | h
          · exact absurd h3 h
          · exact h
        rw [if_neg (not_not_intro ((argc_three argc).2 h3))]
        simp only [hgt, if_true]
      · rw [if_pos (fun x => h3 ((argc_three argc).1 x))]
    · simp [showmappingsUsage, cprintf]
    · simp [dumpUsage, cprintf]
  · intro h3 heq
    have h3' := (argc_three argc).2 h3
    constructor
    · unfold mon_showmappings
      rw [if_neg (not_not_intro h3')]
      simp only [heq, gt_iff_lt, lt_self_iff_false, if_false, sub_self, i32_zero,
        showmappingsLoop_empty]
    · unfold mon_memorydump
      rw [if_neg (not_not_intro h3')]
      simp only [heq, gt_iff_lt, lt_self_iff_false, if_false, Nat.sub_self, Nat.zero_div,
        Nat.cast_zero, i32_zero]
      by_cases hk : u32 (env.strtol (argv.getD 2 []) 16) ≥ KERNBASE
      · rw [if_pos hk, if_pos hk, dumpDirectLoop_empty]
      · rw [if_neg hk, if_neg hk, dumpPagedLoop_empty]

/-- Witness of `range_validation`: `dump 10 0` is rejected, `dump f0000000 f0000000` and
`showmappings f0000000 f0000000` are accepted and print no word and no row. -/
theorem range_validation_witness :
    (mon_showmappings sampleEnv 1 3 ["showmappings".data, "10".data, "0".data] 0 sampleKernel
        = .ret 1 (showmappingsUsage sampleKernel) ∧
      mon_memorydump sampleEnv 1 3 ["showmappings".data, "10".data, "0".data] 0 sampleKernel
        = .ret 1 (dumpUsage sampleKernel) ∧
      (showmappingsUsage sampleKernel).mem = sampleKernel.mem ∧
      (dumpUsage sampleKernel).mem = sampleKernel.mem ∧
      (showmappingsUsage sampleKernel).console = sampleKernel.console ++
        [{ fmt := "\nWrong arguments", args := [] },
         { fmt := "\nUsage :\n    showmappings [hex start vitual adress] [hex end virtual adress]\n",
           args := [] }] ∧
      (dumpUsage sampleKernel).console = sampleKernel.console ++
        [{ fmt := "\nWrong arguments", args := [] },
         { fmt := "\nUsage :\n    dump [hex start adress] [hex end adress]\n", args := [] }]) ∧
    (mon_showmappings sampleEnv (0 + 1) 3 ["dump".data, "f0000000".data, "f0000000".data] 0
        sampleKernel =
        .ret 0 (cprintf (cprintf (cprintf sampleKernel
          "Virtual/Physical Address|   Permission bits     |" [])
          "\n    VA     |    PA      |  P |  R/W |  U/S |  D |" []) "\n" []) ∧
      mon_memorydump sampleEnv (0 + 1) 3 ["dump".data, "f0000000".data, "f0000000".data] 0
        sampleKernel =
        .ret 0 (if u32 (sampleEnv.strtol (["dump".data, "f0000000".data, "f0000000".data].getD 1 [])
            16) ≥ KERNBASE then sampleKernel
          else cprintf sampleKernel "\n" [])) :=
  ⟨(range_validation sampleEnv 1 3 ["showmappings".data, "10".data, "0".data] 0 sampleKernel).1
      (Or.inr (by decide)),
   (range_validation sampleEnv 0 3 ["dump".data, "f0000000".data, "f0000000".data] 0
      sampleKernel).2 rfl (by decide)⟩

/-! ## Rows of `showmappings` -/

/-- Claim C10, evaluated at a failing input. On a machine where every page is mapped,
`showmappings 0 80000000` (low = 0 ≤ high = 0x80000000) returns 0 having printed the two
header lines and the final newline only: not one of the 0x80000 rows of the range. The
byte count `0x80000000` does not fit the `int size`, which becomes negative. -/
theorem showmappings_two_gib_no_rows (fuel : Nat) :
    (∀ va, (flatEnv.pgdir_walk va).isSome = true) ∧
    u32 (flatEnv.strtol "0".data 16) = 0 ∧
    u32 (flatEnv.strtol "80000000".data 16) = 2147483648 ∧
    i32 ((2147483648 : Int) - 0) = -2147483648 ∧
    (mon_showmappings flatEnv (fuel + 1) 3
      ["showmappings".data, "0".data, "80000000".data] 0 sampleKernel).rc = some 0 ∧
    (mon_showmappings flatEnv (fuel + 1) 3
      ["showmappings".data, "0".data, "80000000".data] 0 sampleKernel).state.console =
      [{ fmt := "Virtual/Physical Address|   Permission bits     |", args := [] },
       { fmt := "\n    VA     |    PA      |  P |  R/W |  U/S |  D |", args := [] },
       { fmt := "\n", args := [] }] := by
  refine ⟨fun va => rfl, by decide, by decide, by decide, ?_, ?_⟩
  · rfl
  · rfl

theorem page_info_some (p va : Nat) (k : Kernel) :
    mon_showmappings_page_info (some p) va k
      = some { k with console := k.console ++ [pageRow (read32 k.mem p) va] } := rfl

theorem i32_of_range {x : Int} (h0 : 0 ≤ x) (h1 : x < 2147483648) : i32 x = x := by
  unfold i32
  omega

theorem showmappingsLoop_rows (env : Env) (la : Nat) (size : Int) (N : Nat)
    (hsize : size ≤ 2147479552)
    (hN : ∀ j : Nat, j < N ↔ (4096 * (j : Int)) < size)
    (hmap : ∀ j < N, ∃ p, env.pgdir_walk (u32 ((la : Int) + 4096 * (j : Int))) = some p) :
    ∀ (d j fuel : Nat) (k : Kernel), j + d = N → d < fuel →
      showmappingsLoop env la size fuel (4096 * (j : Int)) k =
        .ret 0 (cprintf
          { k with console := k.console ++ (List.range' j d).map (fun (t : Nat) =>
              pageRow (read32 k.mem ((env.pgdir_walk (u32 ((la : Int) + 4096 * (t : Int)))).getD 0))
                (u32 ((la : Int) + 4096 * (t : Int)))) } "\n" []) := by
  intro d
  induction d with
  | zero =>
    intro j fuel k hj hf
    obtain ⟨f, rfl⟩ : ∃ f, fuel = f + 1 := ⟨fuel - 1, by omega⟩
    have hnot : ¬ (4096 * (j : Int)) < size := by
      intro h
      have := (hN j).2 h
      omega
    rw [showmappingsLoop, if_neg hnot]
    simp
  | succ d ih =>
    intro j fuel k hj hf
    obtain ⟨f, rfl⟩ : ∃ f, fuel = f + 1 := ⟨fuel - 1, by omega⟩
    have hjN : j < N := by omega
    have hlt : (4096 * (j : Int)) < size := (hN j).1 hjN
    obtain ⟨p, hp⟩ := hmap j hjN
    have hnext : i32 (4096 * (j : Int) + (PGSIZE : Nat)) = 4096 * ((j + 1 : Nat) : Int) := by
      have : (4096 * (j : Int) + (PGSIZE : Nat)) = 4096 * ((j + 1 : Nat) : Int) := by
        simp [PGSIZE]; ring
      rw [this]
      apply i32_of_range
      · positivity
      · push_cast; omega
    rw [showmappingsLoop, if_pos hlt]
    simp only [hp, page_info_some, hnext]
    rw [ih (j + 1) f _ (by omega) (by omega)]
    simp [List.range'_succ, hp]

/-- The rows of `showmappings` when the byte count fits: for `low ≤ high` with
`high - low ≤ 0x7ffff000`, every page of the range mapped and fuel above the number of
pages, `mon_showmappings` returns 0 and prints, between its header lines and the final
newline, exactly one row for each address `low + 4096 * t` below `high`, in increasing
order: `(high - low + 4095) / 4096` rows. -/
theorem showmappings_rows (env : Env) (fuel : Nat) (argv : List (List Char)) (tf : Nat)
    (k : Kernel)
    (hle : u32 (env.strtol (argv.getD 1 []) 16) ≤ u32 (env.strtol (argv.getD 2 []) 16))
    (hsz : u32 (env.strtol (argv.getD 2 []) 16) - u32 (env.strtol (argv.getD 1 []) 16)
      ≤ 2147479552)
    (hmap : ∀ t : Nat,
      4096 * t < u32 (env.strtol (argv.getD 2 []) 16) - u32 (env.strtol (argv.getD 1 []) 16) →
      ∃ p, env.pgdir_walk
        (u32 ((u32 (env.strtol (argv.getD 1 []) 16) : Int) + 4096 * (t : Int))) = some p)
    (hfuel : (u32 (env.strtol (argv.getD 2 []) 16) - u32 (env.strtol (argv.getD 1 []) 16)
      + 4095) / 4096 < fuel) :
    (mon_showmappings env fuel 3 argv tf k).rc = some 0 ∧
    (mon_showmappings env fuel 3 argv tf k).state.mem = k.mem ∧
    (mon_showmappings env fuel 3 argv tf k).state.console =
      k.console ++
        [{ fmt := "Virtual/Physical Address|   Permission bits     |", args := [] },
         { fmt := "\n    VA     |    PA      |  P |  R/W |  U/S |  D |", args := [] }] ++
        (List.range ((u32 (env.strtol (argv.getD 2 []) 16)
            - u32 (env.strtol (argv.getD 1 []) 16) + 4095) / 4096)).map (fun (t : Nat) =>
          pageRow
            (read32 k.mem ((env.pgdir_walk
              (u32 ((u32 (env.strtol (argv.getD 1 []) 16) : Int) + 4096 * (t : Int)))).getD 0))
            (u32 ((u32 (env.strtol (argv.getD 1 []) 16) : Int) + 4096 * (t : Int)))) ++
        [{ fmt := "\n", args := [] }] := by
  generalize hla : u32 (env.strtol (argv.getD 1 []) 16) = la at *
  generalize hha : u32 (env.strtol (argv.getD 2 []) 16) = ha at *
  have h3 : (3 : Int) > 2 ∧ (3 : Int) < 4 := by omega
  have hsize : i32 ((ha : Int) - la) = ((ha - la : Nat) : Int) := by
    have : ((ha : Int) - la) = ((ha - la : Nat) : Int) := by omega
    rw [this]
    apply i32_of_range <;> omega
  have hrun := showmappingsLoop_rows env la ((ha - la : Nat) : Int) ((ha - la + 4095) / 4096)
    (by omega) (by intro j; omega)
    (by
      intro j hj
      exact hmap j (by omega))
    ((ha - la + 4095) / 4096) 0 fuel
    (cprintf (cprintf k "Virtual/Physical Address|   Permission bits     |" [])
      "\n    VA     |    PA      |  P |  R/W |  U/S |  D |" [])
    (by omega) hfuel
  have hmon : mon_showmappings env fuel 3 argv tf k =
      showmappingsLoop env la ((ha - la : Nat) : Int) fuel 0
        (cprintf (cprintf k "Virtual/Physical Address|   Permission bits     |" [])
          "\n    VA     |    PA      |  P |  R/W |  U/S |  D |" []) := by
    unfold mon_showmappings
    rw [if_neg (not_not_intro h3)]
    simp only [hla, hha, gt_iff_lt, not_lt.2 hle, if_false, hsize]
  rw [hmon]
  simp only [Nat.cast_zero, mul_zero] at hrun
  rw [hrun]
  refine ⟨rfl, rfl, ?_⟩
  simp [Outcome.state, cprintf, List.range_eq_range']

/-- Witness of `showmappings_rows`: `showmappings 1000 3000` on the machine where every
page is mapped prints the rows of `0x1000` and `0x2000`. -/
theorem showmappings_rows_witness :
    (mon_showmappings flatEnv 3 3 ["showmappings".data, "1000".data, "3000".data] 0
      sampleKernel).rc = some 0 ∧
    (mon_showmappings flatEnv 3 3 ["showmappings".data, "1000".data, "3000".data] 0
      sampleKernel).state.mem = sampleKernel.mem ∧
    (mon_showmappings flatEnv 3 3 ["showmappings".data, "1000".data, "3000".data] 0
      sampleKernel).state.console =
      sampleKernel.console ++
        [{ fmt := "Virtual/Physical Address|   Permission bits     |", args := [] },
         { fmt := "\n    VA     |    PA      |  P |  R/W |  U/S |  D |", args := [] }] ++
        (List.range ((u32 (flatEnv.strtol
              (["showmappings".data, "1000".data, "3000".data].getD 2 []) 16)
            - u32 (flatEnv.strtol
              (["showmappings".data, "1000".data, "3000".data].getD 1 []) 16)
            + 4095) / 4096)).map (fun (t : Nat) =>
          pageRow
            (read32 sampleKernel.mem ((flatEnv.pgdir_walk
              (u32 ((u32 (flatEnv.strtol
                (["showmappings".data, "1000".data, "3000".data].getD 1 []) 16) : Int)
                  + 4096 * (t : Int)))).getD 0))
            (u32 ((u32 (flatEnv.strtol
              (["showmappings".data, "1000".data, "3000".data].getD 1 []) 16) : Int)
                + 4096 * (t : Int)))) ++
        [{ fmt := "\n", args := [] }] :=
  showmappings_rows flatEnv 3 ["showmappings".data, "1000".data, "3000".data] 0 sampleKernel
    (by decide) (by decide) (fun _ _ => ⟨_, rfl⟩) (by decide)

/-- Witness of `pm_address_never_rejected`: the user-space address `0x1000`. -/
theorem pm_address_never_rejected_witness :
    (mon_pmsetpermisionbit sampleEnv 3 ["pmsetperm".data, "1000".data, "W".data] 1
      sampleKernel).1 = 0 :=
  pm_address_never_rejected sampleEnv ["pmsetperm".data, "1000".data, "W".data] 1 sampleKernel
    2 12292 (by decide) (by decide)

/-! ## Unmapped pages and row content of `showmappings` -/

theorem showmappingsLoop_fault (env : Env) (la : Nat) (size i : Int) (fuel : Nat) (k : Kernel)
    (hi : i < size) (hw : env.pgdir_walk (u32 ((la : Int) + i)) = none) :
    showmappingsLoop env la size (fuel + 1) i k = .fault k := by
  rw [showmappingsLoop, if_pos hi]
  simp only [hw, mon_showmappings_page_info]

/-- Claim C11, evaluated at a failing input. On the sample machine the page at `0xf0000000`
is mapped present and writable and the page at `0xf0001000` has no entry.
`showmappings f0000000 f0002000` prints the header and the row of the first page, then
reads through the null entry pointer of the second page: the call ends in a fault, with no
row and no marker for the second page, and does not return. -/
theorem showmappings_unmapped_page_faults (fuel : Nat) :
    sampleEnv.pgdir_walk 4026531840 = some 12288 ∧
    read32 sampleKernel.mem 12288 = 3 ∧
    sampleEnv.pgdir_walk 4026535936 = none ∧
    (mon_showmappings sampleEnv (fuel + 2) 3
      ["showmappings".data, "f0000000".data, "f0002000".data] 0 sampleKernel).faulted = true ∧
    (mon_showmappings sampleEnv (fuel + 2) 3
      ["showmappings".data, "f0000000".data, "f0002000".data] 0 sampleKernel).rc = none ∧
    (mon_showmappings sampleEnv (fuel + 2) 3
      ["showmappings".data, "f0000000".data, "f0002000".data] 0 sampleKernel).state.console =
      [{ fmt := "Virtual/Physical Address|   Permission bits     |", args := [] },
       { fmt := "\n    VA     |    PA      |  P |  R/W |  U/S |  D |", args := [] },
       { fmt := "\n%11x| %11x| %2d | %4d | %4d | %2d |",
         args := [.int 4026531840, .int 0, .int 1, .int 1, .int 0, .int 0] }] := by
  refine ⟨by decide, by decide, by decide, ?_, ?_, ?_⟩
  · rfl
  · rfl
  · rfl

theorem and_two_pow_ne_zero (e i : Nat) : e &&& 2 ^ i ≠ 0 ↔ e.testBit i = true := by
  constructor
  · intro h
    by_contra hb
    apply h
    apply Nat.eq_of_testBit_eq
    intro j
    rw [Nat.testBit_land, Nat.testBit_two_pow, Nat.zero_testBit]
    by_cases hij : i = j
    · subst hij; simp [hb]
    · simp [hij]
  · intro h h0
    have : (e &&& 2 ^ i).testBit i = true := by
      rw [Nat.testBit_land, Nat.testBit_two_pow, h]; simp
    rw [h0, Nat.zero_testBit] at this
    exact Bool.noConfusion this

/-- Claim C12. For an entry of value `e` found at the pointer `p` and the address `va`,
`mon_showmappings_page_info` makes exactly one `cprintf` call whose arguments are, in this
order: `va`, the physical base `e & 0xfffff000`, and the flags of `PTE_P`, `PTE_W`, `PTE_U`,
`PTE_D`, each 1 when the bit is set in `e` (bits 0, 1, 2 and 6) and 0 otherwise; each flag
is 0 or 1. -/
theorem showmappings_row_content (e va p : Nat) (k : Kernel) (he : read32 k.mem p = e) :
    mon_showmappings_page_info (some p) va k =
      some (cprintf k "\n%11x| %11x| %2d | %4d | %4d | %2d |"
        [.int va, .int ((e &&& 4294963200 : Nat) : Int),
         .int (if e.testBit 0 = true then 1 else 0), .int (if e.testBit 1 = true then 1 else 0),
         .int (if e.testBit 2 = true then 1 else 0),
         .int (if e.testBit 6 = true then 1 else 0)]) ∧
    (e &&& PTE_P ≠ 0 ↔ e.testBit 0 = true) ∧ (e &&& PTE_W ≠ 0 ↔ e.testBit 1 = true) ∧
    (e &&& PTE_U ≠ 0 ↔ e.testBit 2 = true) ∧ (e &&& PTE_D ≠ 0 ↔ e.testBit 6 = true) ∧
    (∀ i : Nat, (if e.testBit i = true then (1 : Int) else 0) = 0 ∨
      (if e.testBit i = true then (1 : Int) else 0) = 1) := by
  have hP : e &&& PTE_P ≠ 0 ↔ e.testBit 0 = true := and_two_pow_ne_zero e 0
  have hW : e &&& PTE_W ≠ 0 ↔ e.testBit 1 = true := and_two_pow_ne_zero e 1
  have hU : e &&& PTE_U ≠ 0 ↔ e.testBit 2 = true := and_two_pow_ne_zero e 2
  have hD : e &&& PTE_D ≠ 0 ↔ e.testBit 6 = true := and_two_pow_ne_zero e 6
  refine ⟨?_, hP, hW, hU, hD, ?_⟩
  · subst he
    simp only [mon_showmappings_page_info, hP, hW, hU, hD]
  · intro i
    by_cases h : e.testBit i = true
    · right; rw [if_pos h]
    · left; rw [if_neg h]

/-- Witness of `showmappings_row_content`: the entry `0x5007` of the page at `0x1000`. -/
theorem showmappings_row_content_witness :
    mon_showmappings_page_info (some 12292) 4096 sampleKernel =
      some (cprintf sampleKernel "\n%11x| %11x| %2d | %4d | %4d | %2d |"
        [.int 4096, .int (((20487 : Nat) &&& 4294963200 : Nat) : Int),
         .int (if (20487 : Nat).testBit 0 = true then 1 else 0),
         .int (if (20487 : Nat).testBit 1 = true then 1 else 0),
         .int (if (20487 : Nat).testBit 2 = true then 1 else 0),
         .int (if (20487 : Nat).testBit 6 = true then 1 else 0)]) ∧
    ((20487 : Nat) &&& PTE_P ≠ 0 ↔ (20487 : Nat).testBit 0 = true) ∧
    ((20487 : Nat) &&& PTE_W ≠ 0 ↔ (20487 : Nat).testBit 1 = true) ∧
    ((20487 : Nat) &&& PTE_U ≠ 0 ↔ (20487 : Nat).testBit 2 = true) ∧
    ((20487 : Nat) &&& PTE_D ≠ 0 ↔ (20487 : Nat).testBit 6 = true) ∧
    (∀ i : Nat, (if (20487 : Nat).testBit i = true then (1 : Int) else 0) = 0 ∨
      (if (20487 : Nat).testBit i = true then (1 : Int) else 0) = 1) :=
  showmappings_row_content 20487 4096 12292 sampleKernel (by decide)

/-! ## The memory dump at concrete inputs -/

/-- Claim C13, evaluated at a failing input. `dump f0000000 f0000010` lies in the directly
mapped region and covers `(high - low) / 4 = 4` words, yet `mon_memorydump` prints a full
line of 10 words, the last six read from beyond the fourth word, and returns 0. -/
theorem dump_direct_prints_full_row (fuel : Nat) :
    u32 (sampleEnv.strtol "f0000000".data 16) = 4026531840 ∧
    u32 (sampleEnv.strtol "f0000010".data 16) = 4026531856 ∧
    KERNBASE ≤ 4026531840 ∧
    (4026531856 - 4026531840) / 4 = 4 ∧
    (mon_memorydump sampleEnv (fuel + 12) 3
      ["dump".data, "f0000000".data, "f0000010".data] 0 rampKernel).rc = some 0 ∧
    (mon_memorydump sampleEnv (fuel + 12) 3
      ["dump".data, "f0000000".data, "f0000010".data] 0 rampKernel).state.console =
      (List.range 10).map (fun j =>
        ({ fmt := "%08x ", args := [.int (read32 rampKernel.mem (4026531840 + j))] } : Print))
      ++ [{ fmt := "\n", args := [] }] := by
  refine ⟨by decide, by decide, by decide, by decide, ?_, ?_⟩
  · rfl
  · rfl

/-- Claim C14, evaluated at a failing input. In `dump f0000000 f0000028` (10 words, memory
holding at each address the low byte of the address) the word printed second is the one
stored at `low + 1`, `0x04030201`, not the one stored at `low + 4`, `0x07060504`:
consecutive words are read one byte apart. -/
theorem dump_direct_reads_bytewise (fuel : Nat) :
    u32 (sampleEnv.strtol "f0000000".data 16) = 4026531840 ∧
    u32 (sampleEnv.strtol "f0000028".data 16) = 4026531880 ∧
    KERNBASE ≤ 4026531840 ∧
    read32 rampKernel.mem (4026531840 + 1) = 67305985 ∧
    read32 rampKernel.mem (4026531840 + 4) = 117835012 ∧
    (mon_memorydump sampleEnv (fuel + 12) 3
      ["dump".data, "f0000000".data, "f0000028".data] 0 rampKernel).rc = some 0 ∧
    (mon_memorydump sampleEnv (fuel + 12) 3
      ["dump".data, "f0000000".data, "f0000028".data] 0 rampKernel).state.console =
      [{ fmt := "%08x ", args := [.int 50462976] }, { fmt := "%08x ", args := [.int 67305985] },
       { fmt := "%08x ", args := [.int 84148994] }, { fmt := "%08x ", args := [.int 100992003] },
       { fmt := "%08x ", args := [.int 117835012] }, { fmt := "%08x ", args := [.int 134678021] },
       { fmt := "%08x ", args := [.int 151521030] }, { fmt := "%08x ", args := [.int 168364039] },
       { fmt := "%08x ", args := [.int 185207048] }, { fmt := "%08x ", args := [.int 202050057] },
       { fmt := "\n", args := [] }] := by
  refine ⟨by decide, by decide, by decide, by decide, by decide, ?_, ?_⟩
  · rfl
  · rfl

set_option maxRecDepth 8192 in
/-- Claim C15, evaluated at a failing input. `dump 0 40` is a 16-word range inside one page
of the translated region; `mon_memorydump` returns 0 and prints a line of 11 words followed
by a line of 5 words, not a line of 10 followed by a line of 6. -/
theorem dump_paged_wraps_after_eleven (fuel : Nat) :
    u32 (sampleEnv.strtol "0".data 16) = 0 ∧
    u32 (sampleEnv.strtol "40".data 16) = 64 ∧
    (0 : Nat) < KERNBASE ∧
    (64 - 0) / 4 = 16 ∧
    (mon_memorydump sampleEnv (fuel + 18) 3
      ["dump".data, "0".data, "40".data] 0 sampleKernel).rc = some 0 ∧
    (mon_memorydump sampleEnv (fuel + 18) 3
      ["dump".data, "0".data, "40".data] 0 sampleKernel).state.console =
      List.replicate 11 ({ fmt := "%08x ", args := [.int 0] } : Print)
      ++ [{ fmt := "\n", args := [] }]
      ++ List.replicate 5 ({ fmt := "%08x ", args := [.int 0] } : Print)
      ++ [{ fmt := "\n", args := [] }] := by
  refine ⟨by decide, by decide, by decide, by decide, ?_, ?_⟩
  · rfl
  · rfl

/-! ## The usage message of the permission editor -/

/-- Claim C17, evaluated at a failing input. `pmsetperm f0000000 D` and
`pmclearperm f0000000 D` succeed on the sample machine (`mon_pmsetpermisionbit` returns 0),
and both handlers still print their usage text. -/
theorem pm_usage_printed_on_success (fuel : Nat) :
    (mon_pmsetpermisionbit sampleEnv 3 ["pmsetperm".data, "f0000000".data, "D".data] 1
      sampleKernel).1 = 0 ∧
    (mon_pmsetperm sampleEnv fuel 3 ["pmsetperm".data, "f0000000".data, "D".data] 0
      sampleKernel).state.console =
      [{ fmt := "\nUsage :\n    pmsetperm [hex virtual adress] [P|W|D|U]\n", args := [] }] ∧
    (mon_pmsetpermisionbit sampleEnv 3 ["pmclearperm".data, "f0000000".data, "D".data] 0
      sampleKernel).1 = 0 ∧
    (mon_pmclearperm sampleEnv fuel 3 ["pmclearperm".data, "f0000000".data, "D".data] 0
      sampleKernel).state.console =
      [{ fmt := "\nUsage :\n    pmclearperm [hex virtual adress] [P|W|D|U]\n", args := [] }] := by
  refine ⟨by decide, ?_, by decide, ?_⟩
  · rfl
  · rfl

/-- The usage text of `pmsetperm` and `pmclearperm` is printed on every call, whether the
edit succeeded or failed, as the last `cprintf` call, and both handlers return 0. -/
theorem pm_usage_always (env : Env) (fuel : Nat) (argc : Int) (argv : List (List Char))
    (tf : Nat) (k : Kernel) :
    (∃ k1, mon_pmsetperm env fuel argc argv tf k =
      .ret 0 (cprintf k1 "\nUsage :\n    pmsetperm [hex virtual adress] [P|W|D|U]\n" [])) ∧
    (∃ k1, mon_pmclearperm env fuel argc argv tf k =
      .ret 0 (cprintf k1 "\nUsage :\n    pmclearperm [hex virtual adress] [P|W|D|U]\n" [])) :=
  ⟨⟨_, rfl⟩, ⟨_, rfl⟩⟩

/-! ## The stack unwinder -/

theorem u32_add_nat (a c : Nat) : u32 ((a : Int) + (c : Int)) = (a + c) % 4294967296 := by
  unfold u32
  omega

theorem read32_congr (m : Nat → Nat) {a b : Nat} (h : a % 4294967296 = b % 4294967296) :
    read32 m a = read32 m b := by
  have h1 : (a + 1) % 4294967296 = (b + 1) % 4294967296 := by omega
  have h2 : (a + 2) % 4294967296 = (b + 2) % 4294967296 := by omega
  have h3 : (a + 3) % 4294967296 = (b + 3) % 4294967296 := by omega
  simp only [read32, h, h1, h2, h3]

theorem u32_add4 (x : Nat) : u32 ((x : Int) + 4) = (x + 4) % 4294967296 := by
  unfold u32
  omega

theorem backtraceLoop_step (env : Env) (fuel fp : Nat) (k : Kernel) :
    backtraceLoop env (fuel + 1) fp k =
      if read32 k.mem fp ≠ NUKE_EBP then
        backtraceLoop env fuel (read32 k.mem fp)
          { k with console := k.console ++ frameBlock env k.mem fp }
      else .ret 0 { k with console := k.console ++ frameBlock env k.mem fp } := by
  have e4 : read32 k.mem ((fp + 4) % 4294967296) = read32 k.mem (fp + 4) :=
    read32_congr _ (by omega)
  have e8 : read32 k.mem (((fp + 4) % 4294967296 + 4) % 4294967296) = read32 k.mem (fp + 8) :=
    read32_congr _ (by omega)
  have e12 : read32 k.mem ((((fp + 4) % 4294967296 + 4) % 4294967296 + 4) % 4294967296)
      = read32 k.mem (fp + 12) := read32_congr _ (by omega)
  have e16 : read32 k.mem (((((fp + 4) % 4294967296 + 4) % 4294967296 + 4) % 4294967296 + 4)
      % 4294967296) = read32 k.mem (fp + 16) := read32_congr _ (by omega)
  have e20 : read32 k.mem ((((((fp + 4) % 4294967296 + 4) % 4294967296 + 4) % 4294967296 + 4)
      % 4294967296 + 4) % 4294967296) = read32 k.mem (fp + 20) := read32_congr _ (by omega)
  have e24 : read32 k.mem (((((((fp + 4) % 4294967296 + 4) % 4294967296 + 4) % 4294967296 + 4)
      % 4294967296 + 4) % 4294967296 + 4) % 4294967296) = read32 k.mem (fp + 24) :=
    read32_congr _ (by omega)
  rw [backtraceLoop]
  simp only [backtraceArgs, ARGSC, cprintf, u32_add4, e4, e8, e12, e16, e20, e24]
  simp only [frameBlock, List.append_assoc, List.cons_append, List.nil_append]

theorem backtraceLoop_chain (env : Env) : ∀ (fps : List Nat) (fp fuel : Nat) (k : Kernel),
    frameChain k.mem (fp :: fps) = true → fps.length < fuel →
    backtraceLoop env fuel fp k =
      .ret 0 { k with console := k.console ++ frameBlocks env k.mem (fp :: fps) } := by
  intro fps
  induction fps with
  | nil =>
    intro fp fuel k hc hf
    obtain ⟨f, rfl⟩ : ∃ f, fuel = f + 1 := ⟨fuel - 1, by simp at hf; omega⟩
    have h0 : read32 k.mem fp = NUKE_EBP := by simpa [frameChain] using hc
    rw [backtraceLoop_step, if_neg (not_not_intro h0)]
    simp [frameBlocks]
  | cons next rest ih =>
    intro fp fuel k hc hf
    obtain ⟨f, rfl⟩ : ∃ f, fuel = f + 1 := ⟨fuel - 1, by simp at hf; omega⟩
    have hc' : (read32 k.mem fp = next ∧ next ≠ NUKE_EBP) ∧
        frameChain k.mem (next :: rest) = true := by
      simpa [frameChain] using hc
    obtain ⟨⟨h1, h2⟩, h3⟩ := hc'
    have hne : read32 k.mem fp ≠ NUKE_EBP := by rw [h1]; exact h2
    rw [backtraceLoop_step, if_pos hne, h1]
    rw [ih next f { k with console := k.console ++ frameBlock env k.mem fp } h3
      (by simp at hf; omega)]
    simp [frameBlocks]

theorem frameBlocks_length (env : Env) (mem : Nat → Nat) (fps : List Nat) :
    (frameBlocks env mem fps).length = 11 * fps.length := by
  induction fps with
  | nil => rfl
  | cons fp fps ih =>
    simp only [frameBlocks, List.length_append, ih, List.length_cons]
    simp [frameBlock]
    omega

/-- Claim C16. If the frame pointers `fp_0 = read_ebp()`, `fp_1`, ..., `fp_{N-1}` form a chain
in memory (each holds the next, no saved frame pointer before the last is 0, the last holds
0), then with fuel for `N` frames `mon_backtrace` returns 0, leaves memory unchanged and
prints, after its heading, exactly the `N` frame blocks of `fp_0`, ..., `fp_{N-1}` in this
order; the block of `fp` shows `fp`, the return address `mem[fp + 4]`, the five words
`mem[fp + 8]`, ..., `mem[fp + 24]`, and the symbolizer's file, line and function name with
the offset of the return address from the start of the function. -/
theorem backtrace_chain (env : Env) (fuel : Nat) (argc : Int) (argv : List (List Char))
    (tf : Nat) (k : Kernel) (rest : List Nat)
    (hchain : frameChain k.mem (env.read_ebp :: rest) = true)
    (hfuel : rest.length + 1 ≤ fuel) :
    mon_backtrace env fuel argc argv tf k =
      .ret 0 { k with console := (k.console ++
        [{ fmt := "\nStack backtrace:\n", args := [] }] ++
        frameBlocks env k.mem (env.read_ebp :: rest)) } ∧
    (frameBlocks env k.mem (env.read_ebp :: rest)).length = 11 * (rest.length + 1) ∧
    (∀ fp, frameBlock env k.mem fp =
      [ { fmt := "  ebp %x ", args := [.int fp] },
        { fmt := "eip %x ", args := [.int (read32 k.mem (fp + 4))] },
        { fmt := "args ", args := [] },
        { fmt := "%08x ", args := [.int (read32 k.mem (fp + 8))] },
        { fmt := "%08x ", args := [.int (read32 k.mem (fp + 12))] },
        { fmt := "%08x ", args := [.int (read32 k.mem (fp + 16))] },
        { fmt := "%08x ", args := [.int (read32 k.mem (fp + 20))] },
        { fmt := "%08x ", args := [.int (read32 k.mem (fp + 24))] },
        { fmt := "\n        ", args := [] },
        { fmt := "%s:%d: ",
          args := [.str (env.debuginfo_eip (read32 k.mem (fp + 4))).eip_file,
                   .int (env.debuginfo_eip (read32 k.mem (fp + 4))).eip_line] },
        { fmt := "%.*s+%d\n",
          args := [.int (env.debuginfo_eip (read32 k.mem (fp + 4))).eip_fn_namelen,
                   .str (env.debuginfo_eip (read32 k.mem (fp + 4))).eip_fn_name,
                   .int (u32 ((read32 k.mem (fp + 4) : Int)
                     - (env.debuginfo_eip (read32 k.mem (fp + 4))).eip_fn_addr))] } ]) := by
  refine ⟨?_, ?_, fun fp => rfl⟩
  · unfold mon_backtrace
    have h := backtraceLoop_chain env rest env.read_ebp fuel
      (cprintf k "\nStack backtrace:\n" []) hchain (by omega)
    rw [h]
    simp [cprintf]
  · rw [frameBlocks_length]
    simp

/-- Witness of `backtrace_chain`: the two frames at `0x2000` and `0x2100` of `stackKernel`. -/
theorem backtrace_chain_witness :
    mon_backtrace sampleEnv 2 1 ["backtrace".data] 0 stackKernel =
      .ret 0 { stackKernel with console := (stackKernel.console ++
        [{ fmt := "\nStack backtrace:\n", args := [] }] ++
        frameBlocks sampleEnv stackKernel.mem (sampleEnv.read_ebp :: [8448])) } ∧
    (frameBlocks sampleEnv stackKernel.mem (sampleEnv.read_ebp :: [8448])).length
      = 11 * ([8448].length + 1) ∧
    (∀ fp, frameBlock sampleEnv stackKernel.mem fp =
      [ { fmt := "  ebp %x ", args := [.int fp] },
        { fmt := "eip %x ", args := [.int (read32 stackKernel.mem (fp + 4))] },
        { fmt := "args ", args := [] },
        { fmt := "%08x ", args := [.int (read32 stackKernel.mem (fp + 8))] },
        { fmt := "%08x ", args := [.int (read32 stackKernel.mem (fp + 12))] },
        { fmt := "%08x ", args := [.int (read32 stackKernel.mem (fp + 16))] },
        { fmt := "%08x ", args := [.int (read32 stackKernel.mem (fp + 20))] },
        { fmt := "%08x ", args := [.int (read32 stackKernel.mem (fp + 24))] },
        { fmt := "\n        ", args := [] },
        { fmt := "%s:%d: ",
          args := [.str (sampleEnv.debuginfo_eip (read32 stackKernel.mem (fp + 4))).eip_file,
                   .int (sampleEnv.debuginfo_eip (read32 stackKernel.mem (fp + 4))).eip_line] },
        { fmt := "%.*s+%d\n",
          args := [.int (sampleEnv.debuginfo_eip (read32 stackKernel.mem (fp + 4))).eip_fn_namelen,
                   .str (sampleEnv.debuginfo_eip (read32 stackKernel.mem (fp + 4))).eip_fn_name,
                   .int (u32 ((read32 stackKernel.mem (fp + 4) : Int)
                     - (sampleEnv.debuginfo_eip
                         (read32 stackKernel.mem (fp + 4))).eip_fn_addr))] } ]) :=
  backtrace_chain sampleEnv 2 1 ["backtrace".data] 0 stackKernel [8448] (by decide) (by decide)

/-! ## Uniqueness of the registered names -/

theorem commands_map_name (env : Env) :
    (commands env).map Command.name = commandText.map Prod.fst := rfl

theorem commandText_nodup : (commandText.map Prod.fst).Nodup := by decide

theorem commandText_tokens : ∀ n ∈ commandText.map Prod.fst, lineTokens n = [n] := by decide

theorem commands_name_inj (env : Env) {c d : Command} (hc : c ∈ commands env)
    (hd : d ∈ commands env) (h : d.name = c.name) : d = c := by
  have hnd : ((commands env).map Command.name).Nodup := by
    rw [commands_map_name]; exact commandText_nodup
  exact List.inj_on_of_nodup_map hnd hd hc h

theorem runcmd_named (env : Env) (fuel tf : Nat) (k : Kernel) (line : List Char)
    (ts : List (List Char)) (c : Command) (hc : c ∈ commands env)
    (htok : lineTokens line = c.name :: ts) (h15 : (lineTokens line).length ≤ 15) :
    runcmd env fuel line tf k
      = c.func fuel (((c.name :: ts).length : Nat) : Int) (c.name :: ts) tf k := by
  have ht : c.name ∈ lineTokens line := by rw [htok]; simp
  obtain ⟨pre, c1, post, h1, h2, h3⟩ := exists_first_named c.name (commands env) ⟨c, hc, rfl⟩
  have hpre : ∀ d ∈ pre, d ∈ commands env := fun d hd => by rw [h1]; simp [hd]
  have hc1 : c1 ∈ commands env := by rw [h1]; simp
  have heq : c1 = c := commands_name_inj env hc hc1 h2
  subst heq
  rw [runcmd, runcmdWith_parsed _ _ _ _ _ h15, htok]
  simp only [List.length_cons, Nat.add_one_ne_zero, if_false]
  rw [h1]
  exact dispatch_first fuel _ (c1.name :: ts) tf k c1 post pre
    (fun d hd h0 => h3 d hd ((strcmp_token_name env ht (hpre d hd)).1 (by simpa using h0)))
    ((strcmp_token_name env ht hc1).2 rfl)

/-- Claim C18. The names of the entries of `commands` are pairwise distinct; an entry is
determined by its name; and every registered handler is reached by its name: the line that
consists of the name alone, and any line of at most 15 tokens whose first token is the
name, makes `runcmd` call that entry's handler with the tokens of the line. -/
theorem registry_unique (env : Env) :
    ((commands env).map Command.name).Nodup ∧
    (commands env).map Command.name =
      ["help".data, "kerninfo".data, "backtrace".data, "showmappings".data, "dump".data,
       "pmsetperm".data, "pmclearperm".data] ∧
    (∀ c ∈ commands env, ∀ d ∈ commands env, d.name = c.name → d = c) ∧
    (∀ c ∈ commands env, ∀ (fuel tf : Nat) (k : Kernel),
      runcmd env fuel c.name tf k = c.func fuel 1 [c.name] tf k) ∧
    (∀ c ∈ commands env, ∀ (fuel tf : Nat) (k : Kernel) (line : List Char)
      (ts : List (List Char)), lineTokens line = c.name :: ts →
      (lineTokens line).length ≤ 15 →
      runcmd env fuel line tf k
        = c.func fuel (((c.name :: ts).length : Nat) : Int) (c.name :: ts) tf k) := by
  refine ⟨?_, rfl, ?_, ?_, ?_⟩
  · rw [commands_map_name]; exact commandText_nodup
  · intro c hc d hd h
    exact commands_name_inj env hc hd h
  · intro c hc fuel tf k
    have htok : lineTokens c.name = c.name :: [] :=
      commandText_tokens _ (commands_name_mem env hc)
    have := runcmd_named env fuel tf k c.name [] c hc htok (by rw [htok]; simp)
    simpa using this
  · intro c hc fuel tf k line ts htok h15
    exact runcmd_named env fuel tf k line ts c hc htok h15

/-- Witness of `registry_unique`: the line `dump 0 10` reaches the handler of `dump`. -/
theorem registry_unique_witness :
    runcmd sampleEnv 5 "dump 0 10".data 0 sampleKernel
      = mon_memorydump sampleEnv 5
          (((("dump".data :: ["0".data, "10".data]).length : Nat)) : Int)
          ("dump".data :: ["0".data, "10".data]) 0 sampleKernel :=
  (registry_unique sampleEnv).2.2.2.2
    { name := "dump".data, desc := "Display the content of a memory range".data,
      func := mon_memorydump sampleEnv }
    (by simp [commands]) 5 0 sampleKernel "dump 0 10".data ["0".data, "10".data]
    (by decide) (by decide)

/-! ## Return values and the exit of the monitor loop -/

theorem showmappingsLoop_rc (env : Env) (la : Nat) (size : Int) :
    ∀ (fuel : Nat) (i : Int) (k : Kernel) (rc : Int) (k1 : Kernel),
    showmappingsLoop env la size fuel i k = .ret rc k1 → rc = 0 := by
  intro fuel
  induction fuel with
  | zero => intro i k rc k1 h; simp [showmappingsLoop] at h
  | succ f ih =>
    intro i k rc k1 h
    rw [showmappingsLoop] at h
    by_cases hi : i < size
    · rw [if_pos hi] at h
      cases hp : mon_showmappings_page_info (env.pgdir_walk (u32 ((la : Int) + i)))
          (u32 ((la : Int) + i)) k with
      | none => simp [hp] at h
      | some k2 =>
        simp only [hp] at h
        exact ih _ _ _ _ h
    · rw [if_neg hi] at h
      injection h with h1 _
      exact h1.symm

theorem dumpDirectLoop_rc (l : Nat) (size : Int) :
    ∀ (fuel : Nat) (i : Int) (k : Kernel) (rc : Int) (k1 : Kernel),
    dumpDirectLoop l size fuel i k = .ret rc k1 → rc = 0 := by
  intro fuel
  induction fuel with
  | zero => intro i k rc k1 h; simp [dumpDirectLoop] at h
  | succ f ih =>
    intro i k rc k1 h
    rw [dumpDirectLoop] at h
    by_cases hi : i < size
    · rw [if_pos hi] at h
      cases hp : dumpDirectRow l (i32 (i + Int.tdiv CMDBUF_SIZE 8)) f i k with
      | none => simp [hp] at h
      | some k2 =>
        simp only [hp] at h
        exact ih _ _ _ _ h
    · rw [if_neg hi] at h
      injection h with h1 _
      exact h1.symm

theorem dumpPagedLoop_rc (env : Env) (l : Nat) (size : Int) :
    ∀ (fuel : Nat) (i : Int) (k : Kernel) (rc : Int) (k1 : Kernel),
    dumpPagedLoop env l size fuel i k = .ret rc k1 → rc = 0 := by
  intro fuel
  induction fuel with
  | zero => intro i k rc k1 h; simp [dumpPagedLoop] at h
  | succ f ih =>
    intro i k rc k1 h
    rw [dumpPagedLoop] at h
    by_cases hi : i < size
    · rw [if_pos hi] at h
      cases hk : env.KADDR l with
      | none => simp [hk] at h
      | some la =>
        cases hw : env.pgdir_walk la with
        | none => simp [hk, hw] at h
        | some pte =>
          simp only [hk, hw] at h
          cases hp : dumpPageWords l la
              (u32 (((read32 k.mem pte &&& 4294963200 : Nat) : Int) + (PGSIZE : Nat)))
              size f i i k with
          | none => simp [hp] at h
          | some r =>
            obtain ⟨k2, i2, j2⟩ := r
            simp only [hp] at h
            exact ih _ _ _ _ h
    · rw [if_neg hi] at h
      injection h with h1 _
      exact h1.symm

theorem backtraceLoop_rc (env : Env) :
    ∀ (fuel fp : Nat) (k : Kernel) (rc : Int) (k1 : Kernel),
    backtraceLoop env fuel fp k = .ret rc k1 → rc = 0 := by
  intro fuel
  induction fuel with
  | zero => intro fp k rc k1 h; simp [backtraceLoop] at h
  | succ f ih =>
    intro fp k rc k1 h
    rw [backtraceLoop_step] at h
    by_cases hn : read32 k.mem fp ≠ NUKE_EBP
    · rw [if_pos hn] at h
      exact ih _ _ _ _ h
    · rw [if_neg hn] at h
      injection h with h1 _
      exact h1.symm

theorem mon_showmappings_rc (env : Env) (fuel : Nat) (argc : Int) (argv : List (List Char))
    (tf : Nat) (k : Kernel) (rc : Int) (k1 : Kernel)
    (h : mon_showmappings env fuel argc argv tf k = .ret rc k1) : rc = 0 ∨ rc = 1 := by
  unfold mon_showmappings at h
  by_cases h3 : ¬ (argc > 2 ∧ argc < 4)
  · rw [if_pos h3] at h
    injection h with h1 _; exact Or.inr h1.symm
  · rw [if_neg h3] at h
    by_cases hgt : u32 (env.strtol (argv.getD 1 []) 16) > u32 (env.strtol (argv.getD 2 []) 16)
    · simp only [hgt, if_true] at h
      injection h with h1 _; exact Or.inr h1.symm
    · simp only [hgt, if_false] at h
      exact Or.inl (showmappingsLoop_rc env _ _ _ _ _ _ _ h)

theorem mon_memorydump_rc (env : Env) (fuel : Nat) (argc : Int) (argv : List (List Char))
    (tf : Nat) (k : Kernel) (rc : Int) (k1 : Kernel)
    (h : mon_memorydump env fuel argc argv tf k = .ret rc k1) : rc = 0 ∨ rc = 1 := by
  unfold mon_memorydump at h
  by_cases h3 : ¬ (argc > 2 ∧ argc < 4)
  · rw [if_pos h3] at h
    injection h with h1 _; exact Or.inr h1.symm
  · rw [if_neg h3] at h
    by_cases hgt : u32 (env.strtol (argv.getD 1 []) 16) > u32 (env.strtol (argv.getD 2 []) 16)
    · simp only [hgt, if_true] at h
      injection h with h1 _; exact Or.inr h1.symm
    · simp only [hgt, if_false] at h
      by_cases hk : u32 (env.strtol (argv.getD 1 []) 16) ≥ KERNBASE
      · rw [if_pos hk] at h
        exact Or.inl (dumpDirectLoop_rc _ _ _ _ _ _ _ h)
      · rw [if_neg hk] at h
        exact Or.inl (dumpPagedLoop_rc env _ _ _ _ _ _ _ h)

theorem commands_rc (env : Env) (fuel tf : Nat) :
    ∀ c ∈ commands env, ∀ (argc : Int) (argv : List (List Char)) (k : Kernel) (rc : Int)
      (k1 : Kernel), c.func fuel argc argv tf k = .ret rc k1 → rc = 0 ∨ rc = 1 := by
  intro c hc argc argv k rc k1 h
  simp only [commands, List.mem_cons, List.mem_singleton, List.not_mem_nil, or_false] at hc
  rcases hc with hc | hc | hc | hc | hc | hc | hc <;> subst hc
  · injection h with h1 _; exact Or.inl h1.symm
  · injection h with h1 _; exact Or.inl h1.symm
  · exact Or.inl (backtraceLoop_rc env _ _ _ _ _ h)
  · exact mon_showmappings_rc env fuel argc argv tf k rc k1 h
  · exact mon_memorydump_rc env fuel argc argv tf k rc k1 h
  · injection h with h1 _; exact Or.inl h1.symm
  · injection h with h1 _; exact Or.inl h1.symm

theorem dispatch_rc (fuel : Nat) (argc : Int) (argv : List (List Char)) (tf : Nat) (k : Kernel) :
    ∀ cmds : List Command,
    (∀ c ∈ cmds, ∀ (rc : Int) (k1 : Kernel),
      c.func fuel argc argv tf k = .ret rc k1 → rc = 0 ∨ rc = 1) →
    ∀ (rc : Int) (k1 : Kernel), dispatch fuel argc argv tf k cmds = .ret rc k1 →
      rc = 0 ∨ rc = 1 := by
  intro cmds
  induction cmds with
  | nil =>
    intro _ rc k1 h
    rw [dispatch] at h
    injection h with h1 _; exact Or.inl h1.symm
  | cons c cs ih =>
    intro hall rc k1 h
    rw [dispatch] at h
    by_cases hs : strcmp (argv.getD 0 []) c.name = 0
    · rw [if_pos hs] at h
      exact hall c (by simp) rc k1 h
    · rw [if_neg hs] at h
      exact ih (fun d hd => hall d (by simp [hd])) rc k1 h

theorem runcmd_rc (env : Env) (fuel tf : Nat) (line : List Char) (k : Kernel) (rc : Int)
    (k1 : Kernel) (h : runcmd env fuel line tf k = .ret rc k1) : rc = 0 ∨ rc = 1 := by
  unfold runcmd runcmdWith at h
  cases hp : parseArgs line with
  | unfinished => simp [hp] at h
  | tooMany =>
    simp only [hp] at h
    injection h with h1 _; exact Or.inl h1.symm
  | parsed mem argv =>
    simp only [hp] at h
    by_cases h0 : argv.length = 0
    · rw [if_pos h0] at h
      injection h with h1 _; exact Or.inl h1.symm
    · rw [if_neg h0] at h
      exact dispatch_rc fuel _ _ tf k (commands env)
        (fun c hc rc k1 hh => commands_rc env fuel tf c hc _ _ k rc k1 hh) rc k1 h

theorem monitorLoop_no_exit (env : Env) (fuel tf : Nat) :
    ∀ (input : List (Option (List Char))) (k k1 : Kernel),
    monitorLoop env fuel tf input k ≠ .exited k1 := by
  intro input
  induction input with
  | nil => intro k k1 h; simp [monitorLoop] at h
  | cons x xs ih =>
    intro k k1 h
    cases x with
    | none =>
      rw [monitorLoop] at h
      exact ih k k1 h
    | some buf =>
      rw [monitorLoop] at h
      cases hr : runcmd env fuel buf tf k with
      | ret rc k2 =>
        have hrc := runcmd_rc env fuel tf buf k rc k2 hr
        simp only [hr] at h
        have : ¬ rc < 0 := by rcases hrc with h0 | h0 <;> omega
        rw [if_neg this] at h
        exact ih k2 k1 h
      | fault k2 => simp [hr] at h
      | halted k2 => simp [hr] at h
      | timeout k2 => simp [hr] at h

/-- Claim C20. Every registered handler returns only 0 or 1; whenever `runcmd` returns, its
result is 0 or 1, never negative; hence `monitor` never leaves its loop through `break`,
whatever `readline` delivers: after any finite sequence of lines it is back in `readline`
or inside a command that does not return. After the line `help` it is back in `readline`,
having printed its two greeting lines and the seven lines of `help`. -/
theorem monitor_never_exits (env : Env) (fuel tf : Nat) :
    (∀ c ∈ commands env, ∀ (argc : Int) (argv : List (List Char)) (k : Kernel) (rc : Int)
      (k1 : Kernel), c.func fuel argc argv tf k = .ret rc k1 → rc = 0 ∨ rc = 1) ∧
    (∀ (line : List Char) (k : Kernel) (rc : Int) (k1 : Kernel),
      runcmd env fuel line tf k = .ret rc k1 → (rc = 0 ∨ rc = 1) ∧ ¬ rc < 0) ∧
    (∀ (input : List (Option (List Char))) (k k1 : Kernel),
      monitor env fuel tf input k ≠ .exited k1) ∧
    (∀ k : Kernel, monitor env fuel tf [some "help".data] k =
      .reading (helpLoop
        (cprintf (cprintf k "Welcome to the JOS kernel monitor!\n" [])
          "Type 'help' for a list of commands.\n" []) commandText)) := by
  refine ⟨commands_rc env fuel tf, ?_, ?_, ?_⟩
  · intro line k rc k1 h
    have := runcmd_rc env fuel tf line k rc k1 h
    exact ⟨this, by rcases this with h0 | h0 <;> omega⟩
  · intro input k k1
    exact monitorLoop_no_exit env fuel tf input _ k1
  · intro k
    rfl

/-! ## The outer loop of the translated-region dump -/

theorem dumpPageWords_exit (l la ppb : Nat) (size i j : Int) (fuel : Nat) (k : Kernel)
    (h : ¬ (ppb > u32 ((l : Int) + i) ∧ i < size)) :
    dumpPageWords l la ppb size (fuel + 1) i j k = some (k, i, j) := by
  rw [dumpPageWords, if_neg h]

theorem dumpPagedLoop_stuck (env : Env) (l la pte : Nat) (size i : Int) (k : Kernel)
    (hi : i < size) (hk : env.KADDR l = some la) (hw : env.pgdir_walk la = some pte)
    (hb : ¬ (u32 (((read32 k.mem pte &&& 4294963200 : Nat) : Int) + (PGSIZE : Nat))
      > u32 ((l : Int) + i))) :
    ∀ fuel : Nat, (dumpPagedLoop env l size fuel i k).timedOut = true := by
  intro fuel
  induction fuel with
  | zero => rfl
  | succ f ih =>
    rw [dumpPagedLoop, if_pos hi]
    simp only [hk, hw]
    cases f with
    | zero => rfl
    | succ g =>
      rw [dumpPageWords_exit _ _ _ _ _ _ _ _ (fun x => hb x.1)]
      exact ih

theorem dumpPageWords_stop (l la ppb : Nat) (size B : Int)
    (hB : ∀ i : Int, 0 ≤ i → i < B → (ppb > u32 ((l : Int) + i) ∧ i < size))
    (hstop : ¬ (ppb > u32 ((l : Int) + B))) (hlt : B < 2147483648) :
    ∀ (fuel : Nat) (i j : Int) (k : Kernel) (r : Kernel × Int × Int), 0 ≤ i → i ≤ B →
      dumpPageWords l la ppb size fuel i j k = some r → r.2.1 = B ∧ r.1.mem = k.mem := by
  intro fuel
  induction fuel with
  | zero => intro i j k r _ _ h; simp [dumpPageWords] at h
  | succ f ih =>
    intro i j k r h0 hle h
    by_cases hi : i < B
    · rw [dumpPageWords, if_pos (hB i h0 hi)] at h
      have hnext : i32 (i + 1) = i + 1 := i32_of_range (by omega) (by omega)
      rw [hnext] at h
      have := ih _ _ _ r (by omega) (by omega) h
      refine ⟨this.1, ?_⟩
      rw [this.2]
      by_cases hj : i32 (j + Int.tdiv CMDBUF_SIZE 8) < i
      · simp [hj, cprintf]
      · simp [hj, cprintf]
    · have hiB : i = B := by omega
      subst hiB
      rw [dumpPageWords_exit _ _ _ _ _ _ _ _ (fun x => hstop x.1)] at h
      injection h with h
      subst h
      exact ⟨rfl, rfl⟩

theorem dumpPagedLoop_two_pages :
    ∀ fuel : Nat, (dumpPagedLoop flatEnv 4096 8192 fuel 0 directKernel).timedOut = true := by
  intro fuel
  have hk : flatEnv.KADDR 4096 = some 4026535936 := by decide
  have hw : flatEnv.pgdir_walk 4026535936 = some 8126468 := by decide
  have hppb : u32 (((read32 directKernel.mem 8126468 &&& 4294963200 : Nat) : Int)
      + (PGSIZE : Nat)) = 8192 := by decide
  cases fuel with
  | zero => rfl
  | succ f =>
    rw [dumpPagedLoop, if_pos (by decide)]
    simp only [hk, hw, hppb]
    cases hp : dumpPageWords 4096 4026535936 8192 8192 f 0 0 directKernel with
    | none => rfl
    | some r =>
      obtain ⟨k1, i1, j1⟩ := r
      have hstop := dumpPageWords_stop 4096 4026535936 8192 8192 4096
        (by
          intro i h0 h1
          have : u32 (((4096 : Nat) : Int) + i) = (4096 + i).toNat := by
            unfold u32; omega
          rw [this]
          omega)
        (by decide) (by decide) f 0 0 directKernel (k1, i1, j1) (by decide) (by decide) hp
      simp only at hstop
      obtain ⟨h1, h2⟩ := hstop
      subst h1
      simp only
      apply dumpPagedLoop_stuck flatEnv 4096 4026535936 8126468 8192 4096 k1 (by decide) hk hw
      rw [h2, hppb]
      decide

/-- Claim C19, evaluated at a failing input. Every page has an entry, the pages of the
range are present and the kernel pages map their physical pages directly; `dump 1000 9000` (low = 0x1000, high = 0x1000 + 4 * 0x2000,
8192 words) extends past the page of low. Whatever the fuel, `mon_memorydump` does not
return: the inner loop stops at the page boundary after 4096 words and the outer loop then
repeats without progress. -/
theorem dump_paged_never_returns (fuel : Nat) :
    (∀ va, (flatEnv.pgdir_walk va).isSome = true) ∧
    (∀ n ∈ List.range 8,
      read32 directKernel.mem ((flatEnv.pgdir_walk (4096 + 4096 * n)).getD 0) &&& PTE_P ≠ 0 ∧
      read32 directKernel.mem ((flatEnv.pgdir_walk (KERNBASE + 4096 + 4096 * n)).getD 0)
        = 4096 + 4096 * n + 3) ∧
    u32 (flatEnv.strtol "1000".data 16) = 4096 ∧
    u32 (flatEnv.strtol "9000".data 16) = 36864 ∧
    4096 < KERNBASE ∧
    (36864 - 4096) / 4 = 8192 ∧
    (mon_memorydump flatEnv fuel 3 ["dump".data, "1000".data, "9000".data] 0
      directKernel).timedOut = true ∧
    (mon_memorydump flatEnv fuel 3 ["dump".data, "1000".data, "9000".data] 0
      directKernel).rc = none := by
  have hrun : mon_memorydump flatEnv fuel 3 ["dump".data, "1000".data, "9000".data] 0
      directKernel = dumpPagedLoop flatEnv 4096 8192 fuel 0 directKernel := rfl
  have ht := dumpPagedLoop_two_pages fuel
  refine ⟨fun va => rfl, by decide, by decide, by decide, by decide, by decide, ?_, ?_⟩
  · rw [hrun]; exact ht
  · rw [hrun]
    cases hd : dumpPagedLoop flatEnv 4096 8192 fuel 0 directKernel with
    | timeout k1 => rfl
    | ret rc k1 => rw [hd] at ht; exact Bool.noConfusion ht
    | fault k1 => rfl
    | halted k1 => rfl

/-! ## The output of the direct-region dump -/

theorem cmdbuf_div : Int.tdiv CMDBUF_SIZE 8 = 10 := by decide

theorem u32_lt (x : Int) : u32 x < 4294967296 := by
  unfold u32
  omega

theorem dumpDirectRow_words (l : Nat) : ∀ (n J fuel : Nat) (k : Kernel),
    J + n < 2147483648 → n < fuel →
    dumpDirectRow l ((J + n : Nat) : Int) fuel (J : Int) k =
      some { k with console := k.console ++ (List.range' J n).map (fun (t : Nat) =>
        ({ fmt := "%08x ", args := [.int (read32 k.mem (u32 ((l : Int) + (t : Int))))] }
          : Print)) } := by
  intro n
  induction n with
  | zero =>
    intro J fuel k _ hf
    obtain ⟨f, rfl⟩ : ∃ f, fuel = f + 1 := ⟨fuel - 1, by omega⟩
    rw [dumpDirectRow, if_neg (by simp)]
    simp
  | succ n ih =>
    intro J fuel k hJ hf
    obtain ⟨f, rfl⟩ : ∃ f, fuel = f + 1 := ⟨fuel - 1, by omega⟩
    have hnext : i32 ((J : Int) + 1) = ((J + 1 : Nat) : Int) := by
      rw [i32_of_range (by omega) (by omega)]; simp
    have hb : ((J + (n + 1) : Nat) : Int) = ((J + 1 + n : Nat) : Int) := by
      have : J + (n + 1) = J + 1 + n := by omega
      rw [this]
    rw [dumpDirectRow, if_pos (by push_cast; omega), hnext, hb,
      ih (J + 1) f _ (by omega) (by omega)]
    simp [cprintf, List.range'_succ]

theorem dumpDirectLoop_rows (l S R : Nat) (hS : S < 1073741824)
    (hR : ∀ r : Nat, r < R ↔ 10 * r < S) :
    ∀ (d r fuel : Nat) (k : Kernel), r + d = R → d + 11 < fuel →
    dumpDirectLoop l (S : Int) fuel ((10 * r : Nat) : Int) k =
      .ret 0 { k with console := k.console ++ dumpDirectRows k.mem l d r } := by
  intro d
  induction d with
  | zero =>
    intro r fuel k hr hf
    obtain ⟨f, rfl⟩ : ∃ f, fuel = f + 1 := ⟨fuel - 1, by omega⟩
    have hnot : ¬ ((10 * r : Nat) : Int) < (S : Int) := by
      intro h
      have := (hR r).2 (by exact_mod_cast h)
      omega
    rw [dumpDirectLoop, if_neg hnot]
    simp [dumpDirectRows]
  | succ d ih =>
    intro r fuel k hr hf
    obtain ⟨f, rfl⟩ : ∃ f, fuel = f + 1 := ⟨fuel - 1, by omega⟩
    have hlt : 10 * r < S := (hR r).1 (by omega)
    have hbound : i32 (((10 * r : Nat) : Int) + Int.tdiv CMDBUF_SIZE 8)
        = ((10 * r + 10 : Nat) : Int) := by
      rw [cmdbuf_div, i32_of_range (by omega) (by omega)]; rfl
    have hnext : ((10 * r + 10 : Nat) : Int) = ((10 * (r + 1) : Nat) : Int) := by
      congr 1
    rw [dumpDirectLoop, if_pos (by exact_mod_cast hlt), hbound,
      dumpDirectRow_words l 10 (10 * r) f k (by omega) (by omega)]
    simp only [hnext]
    rw [ih (r + 1) f _ (by omega) (by omega)]
    simp [cprintf, dumpDirectRows]

theorem dumpDirectRows_length (mem : Nat → Nat) (l : Nat) : ∀ d r : Nat,
    (dumpDirectRows mem l d r).length = 11 * d := by
  intro d
  induction d with
  | zero => intro r; rfl
  | succ d ih =>
    intro r
    simp only [dumpDirectRows, List.length_append, List.length_map, List.length_range', ih,
      List.length_singleton]
    omega

/-- The output of `dump` in the directly mapped region: for `low ≤ high` with
`low ≥ KERNBASE` and enough fuel, `mon_memorydump` returns 0, leaves memory unchanged and
prints `((high - low) / 4 + 9) / 10` lines of exactly ten words each, every line followed by
a newline; the word at position `t` of the output (counted from 0) is the 32-bit word stored
at the address `low + t`. -/
theorem dump_direct_output (env : Env) (fuel : Nat) (argv : List (List Char)) (tf : Nat)
    (k : Kernel)
    (hle : u32 (env.strtol (argv.getD 1 []) 16) ≤ u32 (env.strtol (argv.getD 2 []) 16))
    (hk : u32 (env.strtol (argv.getD 1 []) 16) ≥ KERNBASE)
    (hfuel : ((u32 (env.strtol (argv.getD 2 []) 16) - u32 (env.strtol (argv.getD 1 []) 16)) / 4
      + 9) / 10 + 11 < fuel) :
    mon_memorydump env fuel 3 argv tf k =
      .ret 0 { k with console := (k.console ++
        dumpDirectRows k.mem (u32 (env.strtol (argv.getD 1 []) 16))
          (((u32 (env.strtol (argv.getD 2 []) 16) - u32 (env.strtol (argv.getD 1 []) 16)) / 4
            + 9) / 10) 0) } ∧
    (dumpDirectRows k.mem (u32 (env.strtol (argv.getD 1 []) 16))
      (((u32 (env.strtol (argv.getD 2 []) 16) - u32 (env.strtol (argv.getD 1 []) 16)) / 4
        + 9) / 10) 0).length
      = 11 * (((u32 (env.strtol (argv.getD 2 []) 16)
          - u32 (env.strtol (argv.getD 1 []) 16)) / 4 + 9) / 10) := by
  refine ⟨?_, dumpDirectRows_length _ _ _ _⟩
  have hh := u32_lt (env.strtol (argv.getD 2 []) 16)
  generalize hl' : u32 (env.strtol (argv.getD 1 []) 16) = l at *
  generalize hh' : u32 (env.strtol (argv.getD 2 []) 16) = h at *
  have h3 : (3 : Int) > 2 ∧ (3 : Int) < 4 := by omega
  have hsize : i32 (((h - l) / 4 : Nat) : Int) = (((h - l) / 4 : Nat) : Int) :=
    i32_of_range (by omega) (by omega)
  have hrun := dumpDirectLoop_rows l ((h - l) / 4) (((h - l) / 4 + 9) / 10) (by omega)
    (by intro r; omega) (((h - l) / 4 + 9) / 10) 0 fuel k (by omega) hfuel
  unfold mon_memorydump
  rw [if_neg (not_not_intro h3)]
  simp only [hl', hh', gt_iff_lt, not_lt.2 hle, if_false, hsize, if_pos hk]
  simpa using hrun

/-- Witness of `dump_direct_output`: `dump f0000000 f0000010` prints one line of ten words. -/
theorem dump_direct_output_witness :
    mon_memorydump sampleEnv 13 3 ["dump".data, "f0000000".data, "f0000010".data] 0 rampKernel =
      .ret 0 { rampKernel with console := (rampKernel.console ++
        dumpDirectRows rampKernel.mem
          (u32 (sampleEnv.strtol (["dump".data, "f0000000".data, "f0000010".data].getD 1 []) 16))
          (((u32 (sampleEnv.strtol
                (["dump".data, "f0000000".data, "f0000010".data].getD 2 []) 16)
              - u32 (sampleEnv.strtol
                (["dump".data, "f0000000".data, "f0000010".data].getD 1 []) 16)) / 4
            + 9) / 10) 0) } ∧
    (dumpDirectRows rampKernel.mem
      (u32 (sampleEnv.strtol (["dump".data, "f0000000".data, "f0000010".data].getD 1 []) 16))
      (((u32 (sampleEnv.strtol (["dump".data, "f0000000".data, "f0000010".data].getD 2 []) 16)
          - u32 (sampleEnv.strtol
            (["dump".data, "f0000000".data, "f0000010".data].getD 1 []) 16)) / 4
        + 9) / 10) 0).length
      = 11 * (((u32 (sampleEnv.strtol
            (["dump".data, "f0000000".data, "f0000010".data].getD 2 []) 16)
          - u32 (sampleEnv.strtol
            (["dump".data, "f0000000".data, "f0000010".data].getD 1 []) 16)) / 4 + 9) / 10) :=
  dump_direct_output sampleEnv 13 ["dump".data, "f0000000".data, "f0000010".data] 0 rampKernel
    (by decide) (by decide) (by decide)

end JOS
